import Mathlib

/-!
# Verification of the octopus digest / enrichment pipeline

A shallow embedding, in Lean 4, of the core of the octopus repository:

* the Context Budgeter (`octopus/scripts/generate_tech_digest.py` and
  `octopus/processing/digest_context.py`): block formatting, token
  estimation and the degrade-to-summary pass;
* digest story selection (`get_relevant_stories`) and the digest `main`
  routine, modelled as an effect trace;
* the story analysis post-processing (`octopus/processing/story_processor.py`):
  entity validation, required-tag augmentation and YAML-failure degradation;
* the LLM response processor retry loop (`octopus/genai/processor.py`);
* the email enrichment pipeline and URL-content cache
  (`octopus/scripts/email_process_stories.py`,
  `octopus/processing/content_extractor.py`).

Python data is embedded as plain Lean data: SQLAlchemy rows become
structures, `datetime` columns become `Int` timestamps, `Decimal` / `float`
scores become `ℚ`, nullable columns become `Option`, and Python exceptions
become `Except` values.  Python truthiness (`if x:`) is modelled explicitly
by the `pyTruthy*` helpers below.
-/

/-- Python truthiness of an `Optional[str]`: `None` and the empty string are
falsy, every other string is truthy. -/
def pyTruthyStr : Option String → Bool
  | none => false
  | some s => s ≠ ""

/-- Python `a or dflt` for `a : Optional[str]`: returns the string when it is
truthy, otherwise the (already evaluated) fallback. -/
def pyOrS (a : Option String) (dflt : String) : String :=
  match a with
  | none => dflt
  | some s => if s = "" then dflt else s

/-! Character-list implementations of the Python string primitives the
embedding needs (`strip`, `startswith`, `endswith`, digit parsing).  They
agree with the byte-position-based core-library versions but also reduce
inside the kernel, so that concrete runs can be settled by `decide`. -/

/-- Python `str.strip()` (whitespace from both ends). -/
def pyStrip (s : String) : String :=
  String.mk (((s.data.dropWhile Char.isWhitespace).reverse.dropWhile
    Char.isWhitespace).reverse)

/-- Python `str.startswith`. -/
def strStarts (s p : String) : Bool := p.data.isPrefixOf s.data

/-- Python `str.endswith`. -/
def strEnds (s p : String) : Bool := p.data.reverse.isPrefixOf s.data.reverse

/-- The numeric value of a digit string. -/
def digitsVal (l : List Char) : Nat :=
  l.foldl (fun acc c => acc * 10 + (c.toNat - 48)) 0

/-- Split a character list at the dots (`"a.b".split(".")`). -/
def splitDotAux : List Char → List Char → List String
  | [], acc => [String.mk acc.reverse]
  | c :: rest, acc =>
    if c = '.' then String.mk acc.reverse :: splitDotAux rest []
    else splitDotAux rest (c :: acc)

def splitDot (s : String) : List String := splitDotAux s.data []

/-! ## Data model (octopus/db/models) -/

/-- `octopus.db.models.hacker_news.Story` (the fields read by the digest
  pipeline). -/
structure Story where
  id : Nat
  url : Option String
  title : String
  content : Option String
  target_content : Option String
  deriving Repr, DecidableEq

/-- `octopus.db.models.emails.EmailStory` (the fields read by the digest and
  email-enrichment pipelines). -/
structure EmailStory where
  id : Nat
  url : String
  title : String
  target_content : Option String
  deriving Repr, DecidableEq

/-- `octopus.db.models.telegram.TelegramStory` (the fields read by the digest
  pipeline). -/
structure TelegramStory where
  id : Nat
  channel_id : String
  message_id : String
  content : String
  deriving Repr, DecidableEq

/-- `octopus.db.models.summaries.ItemEntity`: shared entity vocabulary row.
  Note the column is named `type` (used by `generate_tech_digest.py` and
  `db/operations.py`); there is no `entity_type` or `description` column. -/
structure ItemEntity where
  id : Nat
  name : String
  type : String
  deriving Repr, DecidableEq

/-- An `ItemEntityRelation` as delivered by the `joinedload` of
  `ProcessedItem.entities`, with its `.entity` relationship resolved; the
  digest formatters only read `relation.entity`. -/
structure LoadedEntityRel where
  entity : ItemEntity
  deriving Repr, DecidableEq

/-- `octopus.db.models.summaries.ProcessedItem`.  `created_at` is an integer
  timestamp; `entities` is the `joinedload`ed relationship view used by the
  digest formatters. -/
structure ProcessedItem where
  id : Nat
  created_at : Int
  summary : String
  related_item_type : String
  related_item_id : Nat
  entities : List LoadedEntityRel
  deriving Repr, DecidableEq

/-- `octopus.db.models.summaries.ItemTag`. -/
structure ItemTag where
  id : Nat
  name : String
  deriving Repr, DecidableEq

/-- `octopus.db.models.summaries.ItemTagRelation` (scores are `Decimal`,
  embedded as `ℚ`). -/
structure ItemTagRelation where
  item_id : Nat
  tag_id : Nat
  relation_value : ℚ
  deriving Repr, DecidableEq

/-- The database session as seen by the digest generator: point lookups by
  primary key for the three raw-item tables (`scalar_one_or_none`), and the
  row lists scanned by the `get_relevant_stories` query. -/
structure Db where
  stories : Nat → Option Story
  emailStories : Nat → Option EmailStory
  telegramStories : Nat → Option TelegramStory
  processedItems : List ProcessedItem
  itemTags : List ItemTag
  itemTagRelations : List ItemTagRelation

namespace TechDigest

/-! ## octopus/scripts/generate_tech_digest.py -/

/-- `RELEVANT_TAGS` from `generate_tech_digest.py`. -/
def RELEVANT_TAGS : List String :=
  ["artificial intelligence", "machine learning", "generative ai",
   "large language models", "cybersecurity", "computer vision",
   "natural language processing"]

/-- `MIN_TAG_SCORE = Decimal("0.3")`. -/
def MIN_TAG_SCORE : ℚ := mkRat 3 10

/-- `DEFAULT_DAYS = 7`. -/
def DEFAULT_DAYS : Nat := 7

/-- Seconds per day, used to embed `timedelta(days=n)` on integer
  timestamps. -/
def SECONDS_PER_DAY : Int := 86400

/-- `MAX_CONTEXT_TOKENS = 100_000`. -/
def MAX_CONTEXT_TOKENS : Int := 100000

/-- `_estimate_tokens(text) = len(text) // CHARS_PER_TOKEN` with
  `CHARS_PER_TOKEN = 4`. -/
def _estimate_tokens (text : String) : Nat := text.length / 4

/-- `_format_story_context(story, db, use_summary)`: resolves the related raw
  item by `(related_item_type, related_item_id)`, picks full content or the
  stored summary, renders the block and returns it together with
  `len(content)`. -/
def _format_story_context (story : ProcessedItem) (db : Db) (use_summary : Bool) :
    String × Nat :=
  -- title / url / content resolution (defaults "Untitled" / "" / "")
  let resolved : String × String × String :=
    if story.related_item_type = "hacker_news_story" then
      match db.stories story.related_item_id with
      | some rs =>
          (if rs.title ≠ "" then rs.title else "Untitled",
           match rs.url with
           | some u => if u ≠ "" then " (" ++ u ++ ")" else ""
           | none => "",
           pyOrS rs.target_content (pyOrS rs.content ""))
      | none => ("Untitled", "", "")
    else if story.related_item_type = "email_story" then
      match db.emailStories story.related_item_id with
      | some rs =>
          (if rs.title ≠ "" then rs.title else "Untitled",
           if rs.url ≠ "" then " (" ++ rs.url ++ ")" else "",
           pyOrS rs.target_content "")
      | none => ("Untitled", "", "")
    else if story.related_item_type = "telegram_story" then
      match db.telegramStories story.related_item_id with
      | some rs =>
          ("Telegram: " ++ rs.channel_id,
           " (Message ID: " ++ rs.message_id ++ ")",
           rs.content)
      | none => ("Untitled", "", "")
    else ("Untitled", "", "")
  let title := resolved.1
  let url := resolved.2.1
  let content := resolved.2.2
  -- use summary if the flag is set or no content is available
  let content_section :=
    if use_summary || pyStrip content = "" then "Summary:\n" ++ story.summary
    else "Content:\n" ++ content
  -- entity listing: one "- name (type)" fragment per relation, no separator
  -- between fragments (the source appends them without a newline), then a
  -- final newline
  let entities_section :=
    if story.entities ≠ [] then
      "Entities:\n" ++
        String.join (story.entities.map
          (fun relation => "- " ++ relation.entity.name ++ " (" ++ relation.entity.type ++ ")")) ++
        "\n"
    else ""
  let formatted :=
    "Story: " ++ title ++ url ++ "\nType: " ++ story.related_item_type ++
    "\nID: " ++ toString story.related_item_id ++ "\n" ++
    entities_section ++ content_section ++ "\n---\n"
  (formatted, content.length)

/-- Sum of the per-block token estimates, as a Python `int`. -/
def estSum (parts : List String) : Int :=
  (parts.map (fun s => (_estimate_tokens s : Int))).sum

/-- The comparison used to embed Python's stable
  `story_sizes.sort(key=lambda x: x[1], reverse=True)`: descending by content
  length.  A stable descending sort is uniquely determined, and Mathlib's
  `insertionSort` is stable, so the embedding agrees with `list.sort`. -/
def lenDescRel (a b : Nat × Nat) : Prop := b.2 ≤ a.2

instance : DecidableRel lenDescRel := fun a b => inferInstanceAs (Decidable (b.2 ≤ a.2))

instance : IsTotal (Nat × Nat) lenDescRel := ⟨fun a b => le_total b.2 a.2⟩

instance : IsTrans (Nat × Nat) lenDescRel := ⟨fun _ _ _ h1 h2 => le_trans h2 h1⟩

/-- The degrade loop of `prepare_context` (lines 179-193): walk the sorted
  `story_sizes`, and while the running total exceeds the limit replace the
  block at the stored original index by its summary block, adjusting the
  running total by the two estimates. -/
def degradeGo (available_tokens : Int) (summaryOf : Nat → String) :
    List (Nat × Nat) → List String → Int → List String × Int
  | [], context_parts, total_tokens => (context_parts, total_tokens)
  | (idx, _) :: rest, context_parts, total_tokens =>
    if total_tokens ≤ available_tokens then (context_parts, total_tokens)
    else
      let old_context := context_parts.getD idx ""
      let new_context := summaryOf idx
      degradeGo available_tokens summaryOf rest
        (context_parts.set idx new_context)
        (total_tokens - (_estimate_tokens old_context : Int) + (_estimate_tokens new_context : Int))

/-- The summary block of each story, as produced by
  `_format_story_context(stories[idx], db, use_summary=True)`. -/
def summaryParts (stories : List ProcessedItem) (db : Db) : List String :=
  stories.map (fun st => (_format_story_context st db true).1)

/-- `stories[idx]` re-formatted with `use_summary=True`, as the degrade loop
  does (`_format_story_context` is pure, so formatting up front and indexing
  is the same). -/
def summOf (stories : List ProcessedItem) (db : Db) (idx : Nat) : String :=
  (summaryParts stories db).getD idx ""

/-- The `story_context` component of the first pass: full-content blocks, in
  story order. -/
def fullParts (stories : List ProcessedItem) (db : Db) : List String :=
  stories.map (fun st => (_format_story_context st db false).1)

/-- The `content_length` component of the first pass. -/
def contentLens (stories : List ProcessedItem) (db : Db) : List Nat :=
  stories.map (fun st => (_format_story_context st db false).2)

/-- The blocks assembled by `prepare_context` before they are joined: the
  first pass formats every story with full content and records
  `(index, content_length)` pairs; if the estimated total exceeds
  `MAX_CONTEXT_TOKENS - prompt_tokens` the degrade pass runs over the pairs
  sorted by content length descending.  (`_format_story_context` returns the
  block and the content length as one pair; the two projections are split
  into `fullParts` and `contentLens` here.) -/
def contextParts (stories : List ProcessedItem) (prompt_tokens : Nat) (db : Db) :
    List String :=
  let available_tokens : Int := MAX_CONTEXT_TOKENS - (prompt_tokens : Int)
  let context_parts := fullParts stories db
  let story_sizes := (List.range stories.length).zip (contentLens stories db)
  let total_tokens := estSum context_parts
  if total_tokens > available_tokens then
    (degradeGo available_tokens (summOf stories db)
      (List.insertionSort lenDescRel story_sizes) context_parts total_tokens).1
  else context_parts

/-- Replaying a list of degrade steps: each `(idx, len)` pair replaces the
  block at `idx` by the summary block.  The degrade loop's final state is
  `applyDegr` of a prefix of the sorted size list. -/
def applyDegr (summaryOf : Nat → String) (parts : List String) :
    List (Nat × Nat) → List String
  | [] => parts
  | p :: l => applyDegr summaryOf (parts.set p.1 (summaryOf p.1)) l

/-- `prepare_context(stories, prompt_tokens, db)`: the newline-join of the
  (possibly degraded) blocks. -/
def prepare_context (stories : List ProcessedItem) (prompt_tokens : Nat) (db : Db) :
    String :=
  String.intercalate "\n" (contextParts stories prompt_tokens db)

/-- `get_relevant_stories(db, start_date, end_date, min_score)`: the
  `SELECT ProcessedItem JOIN ItemTagRelation JOIN ItemTag WHERE ...
  ORDER BY created_at DESC DISTINCT` query.  The joins become existential
  scans over the relation and tag tables; `.distinct()` together with the
  ORM's `.unique()` becomes deduplication by row. -/
def created_at_desc (a b : ProcessedItem) : Prop := b.created_at ≤ a.created_at

instance : DecidableRel created_at_desc :=
  fun a b => inferInstanceAs (Decidable (b.created_at ≤ a.created_at))

instance : IsTotal ProcessedItem created_at_desc := ⟨fun a b => le_total b.created_at a.created_at⟩

instance : IsTrans ProcessedItem created_at_desc := ⟨fun _ _ _ h1 h2 => le_trans h2 h1⟩

/-- Whether a `ProcessedItem` row survives the WHERE clause of
  `get_relevant_stories`: created in `[start_date, end_date]` (both bounds
  are inclusive in the source) and joined to at least one tag relation whose
  tag name is in `RELEVANT_TAGS` with `relation_value ≥ min_score`. -/
def relevantRow (db : Db) (start_date end_date : Int) (min_score : ℚ)
    (item : ProcessedItem) : Bool :=
  decide (start_date ≤ item.created_at) && decide (item.created_at ≤ end_date) &&
  db.itemTagRelations.any (fun rel =>
    rel.item_id == item.id && decide (min_score ≤ rel.relation_value) &&
    db.itemTags.any (fun tag => tag.id == rel.tag_id && RELEVANT_TAGS.contains tag.name))

/-- `DISTINCT` / `.unique()`: keep the first row for each `id`. -/
def dedupeByIdAux (seen : List Nat) : List ProcessedItem → List ProcessedItem
  | [] => []
  | x :: xs =>
    if x.id ∈ seen then dedupeByIdAux seen xs
    else x :: dedupeByIdAux (x.id :: seen) xs

def dedupeById (l : List ProcessedItem) : List ProcessedItem := dedupeByIdAux [] l

def get_relevant_stories (db : Db) (start_date end_date : Int)
    (min_score : ℚ) : List ProcessedItem :=
  dedupeById
    ((List.insertionSort created_at_desc db.processedItems).filter
      (relevantRow db start_date end_date min_score))

end TechDigest

namespace TechDigest

/-- The externally visible effects of `generate_tech_digest.main`, in program
  order.  Reading the prompt template is a pure input here; every output
  (console report, LLM call, prompt-audit row, digest file, digest row,
  story links) becomes a trace entry. -/
inductive Effect
  | printed (msg : String)
  | llmCall (prompt : String)
  | promptRecordInsert
  | fileWrite (content : String)
  | digestInsert (content : String) (start_date end_date : Int)
  | digestStoryLink (processed_item_id : Nat)
  deriving Repr, DecidableEq

/-- `prompt_template.format(context=context)`. -/
def formatTemplate (prompt_template context : String) : String :=
  prompt_template.replace "{context}" context

/-- `main(start_date, end_date)` as a trace function: resolve the default
  date range, run the selection, short-circuit with a console report when no
  story qualifies, otherwise budget the context, call the LLM (whose outcome
  is the `llm` oracle; an `Except.error` models a raised
  `RateLimitError`/`APIError`, returned as the second component), write the
  digest file and insert the `Digest` row plus one `DigestStory` link per
  selected story. -/
def mainRun (db : Db) (start_date? end_date? : Option Int) (now : Int)
    (prompt_template : String) (llm : String → Except String String) :
    List Effect × Option String :=
  let end_date := end_date?.getD now
  let start_date := start_date?.getD (end_date - DEFAULT_DAYS * SECONDS_PER_DAY)
  let stories := get_relevant_stories db start_date end_date MIN_TAG_SCORE
  if stories = [] then
    ([Effect.printed "No relevant stories found in the specified time period."], none)
  else
    let prompt_tokens := _estimate_tokens prompt_template
    let context := prepare_context stories prompt_tokens db
    let prompt := formatTemplate prompt_template context
    match llm prompt with
    | Except.error e => ([Effect.llmCall prompt], some e)
    | Except.ok digest =>
        ([Effect.llmCall prompt, Effect.promptRecordInsert,
          Effect.fileWrite
            ("Tech Digest - " ++ toString start_date ++ " to " ++ toString end_date ++
             "\n========================================\n" ++ digest),
          Effect.digestInsert digest start_date end_date] ++
         stories.map (fun story => Effect.digestStoryLink story.id), none)

end TechDigest

namespace DigestContext

/-! ## octopus/processing/digest_context.py

This module is a twin of the budgeting code in `generate_tech_digest.py`
with two differences that matter:

* `format_story_context` reads `relation.entity.entity_type` and
  `entity.description`, but `ItemEntity` only defines `name` and `type`
  (see `octopus/db/models/summaries.py`), so formatting any story that has
  entity relations raises `AttributeError`;
* the email branch computes
  `related_story.target_content or related_story.content or ""`, and
  `EmailStory` has no `content` attribute, so an email story with a falsy
  `target_content` also raises `AttributeError`.

Both raised exceptions are embedded as `Except.error (PyErr.attributeError
name)`, where `name` is the first missing attribute evaluated. -/

/-- A raised Python `AttributeError` for the named missing attribute. -/
inductive PyErr
  | attributeError (attr : String)
  deriving Repr, DecidableEq

open TechDigest in
/-- `format_story_context(story, db, use_summary, relevant_entity_types)`.
  The resolution of title/url/content follows the source; building the
  entities section raises `AttributeError` (on `entity.entity_type`) as soon
  as the story has any entity relation, for any value of
  `relevant_entity_types`. -/
def format_story_context (story : ProcessedItem) (db : Db) (use_summary : Bool)
    (relevant_entity_types : Option (List String)) :
    Except PyErr (String × Nat) := do
  let resolved : String × String × String ←
    if story.related_item_type = "hacker_news_story" then
      match db.stories story.related_item_id with
      | some rs =>
          pure (if rs.title ≠ "" then rs.title else "Untitled",
                match rs.url with
                | some u => if u ≠ "" then " (" ++ u ++ ")" else ""
                | none => "",
                pyOrS rs.target_content (pyOrS rs.content ""))
      | none => pure ("Untitled", "", "")
    else if story.related_item_type = "email_story" then
      match db.emailStories story.related_item_id with
      | some rs =>
          -- `related_story.target_content or related_story.content or ""`:
          -- when `target_content` is falsy the next disjunct evaluates
          -- `related_story.content`, which does not exist on `EmailStory`.
          if pyTruthyStr rs.target_content then
            pure (if rs.title ≠ "" then rs.title else "Untitled",
                  if rs.url ≠ "" then " (" ++ rs.url ++ ")" else "",
                  pyOrS rs.target_content "")
          else throw (PyErr.attributeError "content")
      | none => pure ("Untitled", "", "")
    else if story.related_item_type = "telegram_story" then
      match db.telegramStories story.related_item_id with
      | some rs =>
          pure ("Telegram: " ++ rs.channel_id,
                " (Message ID: " ++ rs.message_id ++ ")",
                rs.content)
      | none => pure ("Untitled", "", "")
    else pure ("Untitled", "", "")
  let content := resolved.2.2
  let content_section :=
    if use_summary || pyStrip content = "" then "Summary:\n" ++ story.summary
    else "Content:\n" ++ content
  -- lines 81-94: every path through the entity section dereferences
  -- `relation.entity.entity_type`, an attribute `ItemEntity` does not have,
  -- so a non-empty `story.entities` always raises.
  if story.entities ≠ [] then throw (PyErr.attributeError "entity_type")
  else
    let entities_section := ""
    let formatted :=
      "Story: " ++ resolved.1 ++ resolved.2.1 ++ "\nType: " ++ story.related_item_type ++
      "\nID: " ++ toString story.related_item_id ++ "\n" ++
      entities_section ++ content_section ++ "\n---\n"
    pure (formatted, content.length)

open TechDigest in
/-- The fallible degrade loop of `digest_context.prepare_context`: identical
  to `TechDigest.degradeGo`, except that re-formatting a story can raise. -/
def degradeGoE (available_tokens : Int) (summaryOf : Nat → Except PyErr String) :
    List (Nat × Nat) → List String → Int → Except PyErr (List String × Int)
  | [], context_parts, total_tokens => pure (context_parts, total_tokens)
  | (idx, _) :: rest, context_parts, total_tokens =>
    if total_tokens ≤ available_tokens then pure (context_parts, total_tokens)
    else do
      let old_context := context_parts.getD idx ""
      let new_context ← summaryOf idx
      degradeGoE available_tokens summaryOf rest
        (context_parts.set idx new_context)
        (total_tokens - (_estimate_tokens old_context : Int) + (_estimate_tokens new_context : Int))

open TechDigest in
/-- `digest_context.prepare_context(stories, prompt_tokens, db,
  relevant_entity_types)`.  The first pass formats every story with full
  content (any raised `AttributeError` propagates); when the estimated total
  exceeds the budget, the degrade pass replaces the largest stories by their
  summary blocks. -/
def prepare_context (stories : List ProcessedItem) (prompt_tokens : Nat) (db : Db)
    (relevant_entity_types : Option (List String)) : Except PyErr String := do
  let available_tokens : Int := MAX_CONTEXT_TOKENS - (prompt_tokens : Int)
  let firsts ← stories.mapM
    (fun st => format_story_context st db false relevant_entity_types)
  let context_parts := firsts.map Prod.fst
  let story_sizes := (List.range stories.length).zip (firsts.map Prod.snd)
  let total_tokens := estSum context_parts
  if total_tokens > available_tokens then do
    let summariesE := stories.map
      (fun st => format_story_context st db true relevant_entity_types)
    let res ← degradeGoE available_tokens
      (fun idx => (summariesE.getD idx (throw (PyErr.attributeError "index"))).map Prod.fst)
      (List.insertionSort lenDescRel story_sizes) context_parts total_tokens
    pure (String.intercalate "\n" res.1)
  else
    pure (String.intercalate "\n" context_parts)

end DigestContext

namespace StoryProc

/-! ## octopus/processing/story_processor.py

`StoryProcessor.process_content` builds a prompt, awaits
`GenAIProcessor.process`, parses the response with `yaml.safe_load` and
post-processes the resulting mapping.  The LLM call plus YAML parse are
abstracted by the `AnalysisResponse` oracle below; everything from the parse
outcome onwards is embedded directly. -/

/-- A YAML scalar as produced by `yaml.safe_load` (strings, numbers embedded
  as `ℚ`, booleans, `null`). -/
inductive YScalar
  | str (s : String)
  | num (q : ℚ)
  | bool (b : Bool)
  | null
  deriving Repr, DecidableEq

/-- Python truthiness of `item.get(key)`: `none` models an absent key (which
  `dict.get` turns into `None`). -/
def truthy : Option YScalar → Bool
  | none => false
  | some (YScalar.str s) => s ≠ ""
  | some (YScalar.num q) => q ≠ 0
  | some (YScalar.bool b) => b
  | some YScalar.null => false

/-- The Python exceptions that the tag/score conversions can raise. -/
inductive PyExc
  | keyError
  | valueError
  | typeError
  deriving Repr, DecidableEq

/-- A decimal-literal parser standing in for `float(s)` on strings: an
  optional sign, then digits with an optional fractional part.  Strings
  outside this grammar are non-numeric and raise `ValueError` (embedded as
  `none`). -/
def parseDecimalString (s : String) : Option ℚ :=
  let core (t : String) : Option ℚ :=
    match splitDot t with
    | [ip] =>
        if ip ≠ "" && ip.data.all Char.isDigit then some ((digitsVal ip.data : ℚ))
        else none
    | [ip, fp] =>
        if (ip ++ fp) ≠ "" && ip.data.all Char.isDigit && fp.data.all Char.isDigit then
          some (mkRat (digitsVal ip.data * 10 ^ fp.length + digitsVal fp.data) (10 ^ fp.length))
        else none
    | _ => none
  if strStarts s "-" then ((core (s.drop 1)).map Neg.neg) else core s

/-- `float(x)` on a YAML scalar: numbers convert, booleans become 0/1,
  numeric strings parse (others raise `ValueError`), `None` raises
  `TypeError`. -/
def pyFloat : YScalar → Except PyExc ℚ
  | YScalar.num q => Except.ok q
  | YScalar.bool b => Except.ok (if b then 1 else 0)
  | YScalar.str s =>
      match parseDecimalString s with
      | some q => Except.ok q
      | none => Except.error PyExc.valueError
  | YScalar.null => Except.error PyExc.typeError

/-- One element of `result["entities"]`: the four fields read with
  `item.get(...)` (`none` = key absent or `null`). -/
structure RawEntity where
  name : Option YScalar
  type : Option YScalar
  score : Option YScalar
  context : Option YScalar
  deriving Repr, DecidableEq

/-- `valid_types = {"company", "product", "person", "framework"}`. -/
def valid_types : List String := ["company", "product", "person", "framework"]

/-- The defaulted tuple fields appended by the validation loop (the defaults
  never fire for a kept entity). -/
def entityTuple (e : RawEntity) : YScalar × String × ℚ × YScalar :=
  (e.name.getD YScalar.null,
   match e.type with | some (YScalar.str t) => t | _ => "",
   match e.score with
   | some sc => ((pyFloat sc).toOption).getD 0
   | none => 0,
   e.context.getD YScalar.null)

/-- The entity-validation loop of `process_content` (lines 91-117): skip an
  entity when `all([name, entity_type, score, context])` is falsy, when the
  type is not in the fixed vocabulary, when `float(score)` raises, or when
  the converted score is outside `[0, 1]`; append the tuple otherwise. -/
def keptEntities : List RawEntity → List (YScalar × String × ℚ × YScalar)
  | [] => []
  | e :: rest =>
    if ¬(truthy e.name && truthy e.type && truthy e.score && truthy e.context) then
      keptEntities rest
    else
      match e.type with
      | some (YScalar.str t) =>
        if t ∉ valid_types then keptEntities rest
        else
          match e.score with
          | some sc =>
            match pyFloat sc with
            | Except.error _ => keptEntities rest
            | Except.ok q =>
                if ¬(0 ≤ q ∧ q ≤ 1) then keptEntities rest
                else entityTuple e :: keptEntities rest
          | none => keptEntities rest
      | _ => keptEntities rest

/-- One element of `result["tags"]`: `item["name"]` (a string in this model;
  `none` = key absent, raising `KeyError`) and `item["score"]`. -/
structure TagItem where
  name : Option String
  score : Option YScalar
  deriving Repr, DecidableEq

/-- `result["summary"]`: either a scalar (rendered by `str(...)`) or a
  mapping whose `text` key is read (raising `KeyError` when absent). -/
inductive SummaryVal
  | scalar (s : String)
  | dict (text : Option String)
  deriving Repr, DecidableEq

/-- The parsed YAML mapping: `summary` and `tags` are looked up with `[...]`
  (`none` = key absent, `KeyError`), `entities` with `.get(..., [])`. -/
structure YDoc where
  summary : Option SummaryVal
  tags : Option (List TagItem)
  entities : List RawEntity
  deriving Repr, DecidableEq

/-- The outcome of the LLM call plus `yaml.safe_load(clean_yaml(response))`:
  a parsed mapping, a `yaml.YAMLError`, a parse that yields a non-mapping
  (whose subsequent `result["summary"]` raises `TypeError`), a
  `ConnectionError`/`TimeoutError` from the processor, or any other
  exception raised by the processor. -/
inductive AnalysisResponse
  | doc (d : YDoc)
  | yamlError
  | nonMapping
  | connectionError
  | raises (e : String)
  deriving Repr, DecidableEq

/-- `summary_data["text"] if isinstance(summary_data, dict) else
  str(summary_data)`, with the `result["summary"]` lookup. -/
def extractSummary : Option SummaryVal → Except PyExc String
  | none => Except.error PyExc.keyError
  | some (SummaryVal.scalar s) => Except.ok s
  | some (SummaryVal.dict (some t)) => Except.ok t
  | some (SummaryVal.dict none) => Except.error PyExc.keyError

/-- `[(item["name"], float(item["score"])) for item in result["tags"]]`,
  evaluated left to right; the first raised exception propagates. -/
def extractTags : List TagItem → Except PyExc (List (String × ℚ))
  | [] => Except.ok []
  | t :: rest =>
    match t.name with
    | none => Except.error PyExc.keyError
    | some n =>
      match t.score with
      | none => Except.error PyExc.keyError
      | some sc =>
        match pyFloat sc with
        | Except.error e => Except.error e
        | Except.ok q => (extractTags rest).map (fun l => (n, q) :: l)

/-- The result of `process_content`: either the returned
  `(summary, tags, entities)` triple or an uncaught exception. -/
inductive PCResult
  | ok (summary : String) (tags : List (String × ℚ))
       (entities : List (YScalar × String × ℚ × YScalar))
  | raises (exc : String)
  deriving Repr, DecidableEq

/-- The `(error-summary, required tags at 0.5, no entities)` triple returned
  on the YAML-failure, invalid-data and network-error paths. -/
def errorTriple (msg : String) (required_tags : List String) : PCResult :=
  PCResult.ok msg (required_tags.map (fun tag => (tag, mkRat 1 2))) []

/-- The `if not (content or target_content or comments)` guard of
  `process_content`. -/
def hasAnalysisInput (content target_content : Option String)
    (comments : Option (List String)) : Bool :=
  pyTruthyStr content || pyTruthyStr target_content ||
    (match comments with | none => false | some l => l ≠ [])

/-- `StoryProcessor.process_content(content, target_content, comments)`,
  with the LLM call + YAML parse abstracted as `resp`.  Mirrors the source:
  empty-input guard, YAML-failure degradation, summary/tags extraction
  guarded by `except (KeyError, ValueError)`, entity validation, and the
  required-tag augmentation. -/
def process_content (required_tags : List String)
    (content target_content : Option String) (comments : Option (List String))
    (resp : AnalysisResponse) : PCResult :=
  if ¬ hasAnalysisInput content target_content comments then
    PCResult.raises "EmptySummaryResult"
  else
    match resp with
    | AnalysisResponse.connectionError =>
        errorTriple "Error: Network issue while processing" required_tags
    | AnalysisResponse.raises e => PCResult.raises e
    | AnalysisResponse.yamlError =>
        errorTriple "Error: Invalid response format" required_tags
    | AnalysisResponse.nonMapping => PCResult.raises "TypeError"
    | AnalysisResponse.doc d =>
      match extractSummary d.summary with
      | Except.error _ => errorTriple "Error: Invalid response data" required_tags
      | Except.ok summary =>
        match d.tags with
        | none => errorTriple "Error: Invalid response data" required_tags
        | some tagItems =>
          match extractTags tagItems with
          | Except.error PyExc.typeError => PCResult.raises "TypeError"
          | Except.error _ => errorTriple "Error: Invalid response data" required_tags
          | Except.ok tags =>
            let entities := keptEntities d.entities
            -- `tag_dict = dict(tags)`; append any required tag whose name is
            -- not already a key, with score 0.0
            let finalTags := tags ++
              (required_tags.filter
                (fun required_tag => ¬ tags.any (fun p => p.1 = required_tag))).map
                (fun required_tag => (required_tag, (0 : ℚ)))
            PCResult.ok summary finalTags entities

end StoryProc

namespace GenAI

/-! ## octopus/genai/processor.py

`GenAIProcessor.process` is embedded as a function of two oracles: the
format parser (`_validate_and_parse_response`, whose YAML/JSON branches wrap
third-party parsers; `Except.error` is the raised `ValueError`) and the
completion endpoint (`self._async_llm.chat.completions.create`; an
`Except.error` models a raised `RateLimitError`/`APIError`).  The result
carries the outcome, the persisted `Prompt` rows, the attempt trace and the
number of completions requested. -/

/-- `ResponseFormat` with its `.value` strings. -/
inductive ResponseFormat
  | yaml
  | json
  | raw
  deriving Repr, DecidableEq

def ResponseFormat.value : ResponseFormat → String
  | ResponseFormat.yaml => "yaml"
  | ResponseFormat.json => "json"
  | ResponseFormat.raw => "raw"

/-- The `max_retries` default of `GenAIProcessor.__init__`. -/
def defaultMaxRetries : Nat := 2

/-- The `max_tokens` default of `GenAIProcessor.process`. -/
def defaultMaxTokens : Nat := 16000

/-- `_clean_code_block(text)`: strip a leading code fence (with an optional
  `yaml` hint) and a matching trailing fence, then strip whitespace. -/
def _clean_code_block (text : String) : String :=
  let text :=
    if strStarts text "```" then
      let text := if strStarts text "```yaml" then text.drop 7 else text.drop 3
      if strEnds text "```" then text.dropRight 3 else text
    else text
  pyStrip text

/-- A persisted `octopus.db.models.prompts.Prompt` row (the audit log).
  `temperature` holds `str(temperature)` when a temperature was passed. -/
structure PromptRec where
  prompt_text : String
  response_text : String
  response_format : String
  temperature : Option String
  max_tokens : Nat
  deriving Repr, DecidableEq

/-- One loop iteration: the prompt sent, the raw completion, its cleaned
  form, and the validation error if parsing failed. -/
structure Attempt where
  prompt : String
  response : String
  cleaned : String
  parseError : Option String
  deriving Repr, DecidableEq

/-- How a `process` call ends: a parsed result, a `ValueError` re-raised
  after the final attempt, or a provider error propagated from the
  completion call. -/
inductive ProcOutcome (α : Type)
  | ok (v : α)
  | valError (e : String)
  | apiError (e : String)
  deriving Repr, DecidableEq

/-- The full observable result of a `process` call. -/
structure RunResult (α : Type) where
  outcome : ProcOutcome α
  records : List PromptRec
  attempts : List Attempt
  calls : Nat
  deriving Repr, DecidableEq

/-- The corrective follow-up prompt built on a validation error (lines
  207-212). -/
def correctionPrompt (formatValue err original_prompt : String) : String :=
  "Your previous response was not in valid " ++ formatValue ++
  " format. Error: " ++ err ++
  "\nPlease fix the format issues and provide a valid response.\n" ++
  "Original prompt: " ++ original_prompt

/-- The `while retries <= self._max_retries` loop.  `fuel` is the number of
  attempts still allowed (`max_retries + 1 - retries`); the source enters the
  loop with `retries = 0`, so `processGo` is always called with positive
  fuel and the `0` case is unreachable.  On a successful parse the `Prompt`
  row is the only record ever written; on a validation error with exhausted
  retries the error is re-raised; completion-call errors propagate
  untouched. -/
def processGo {α : Type} (parse : String → Except String α)
    (completions : Nat → Except String String) (response_format : ResponseFormat)
    (temperature : Option String) (max_tokens : Nat) (original_prompt : String) :
    Nat → String → List Attempt → RunResult α
  | 0, _, acc => ⟨ProcOutcome.valError "", [], acc, acc.length⟩
  | fuel + 1, prompt, acc =>
    match completions acc.length with
    | Except.error e => ⟨ProcOutcome.apiError e, [], acc, acc.length + 1⟩
    | Except.ok content =>
      let cleaned_content := _clean_code_block content
      match parse cleaned_content with
      | Except.ok result =>
          ⟨ProcOutcome.ok result,
           [⟨prompt, cleaned_content, response_format.value, temperature, max_tokens⟩],
           acc ++ [⟨prompt, content, cleaned_content, none⟩],
           acc.length + 1⟩
      | Except.error e =>
          let acc := acc ++ [⟨prompt, content, cleaned_content, some e⟩]
          if fuel = 0 then ⟨ProcOutcome.valError e, [], acc, acc.length⟩
          else
            processGo parse completions response_format temperature max_tokens
              original_prompt fuel
              (correctionPrompt response_format.value e original_prompt) acc

/-- `GenAIProcessor.process(prompt, response_format=..., temperature=...,
  max_tokens=...)` for a processor constructed with `max_retries`. -/
def process {α : Type} (parse : String → Except String α)
    (completions : Nat → Except String String) (response_format : ResponseFormat)
    (temperature : Option String) (max_tokens : Nat) (max_retries : Nat)
    (prompt : String) : RunResult α :=
  processGo parse completions response_format temperature max_tokens prompt
    (max_retries + 1) prompt []

end GenAI

namespace EmailPipeline

/-! ## octopus/scripts/email_process_stories.py and
  octopus/processing/content_extractor.py

The store-level embedding of the email enrichment pipeline.  External
collaborators are oracles: `extract` is
`DiffBotExtractor.extract_content` (`none` = extraction failed), and
`llmResponse` is the LLM call + YAML parse inside
`StoryProcessor.process_content` (see `StoryProc.AnalysisResponse`).
`scalar_one_or_none` raises `MultipleResultsFound` on more than one row;
that exception is embedded as `Except.error`. -/

/-- `REQUIRED_TAGS` from `email_process_stories.py`. -/
def REQUIRED_TAGS : List String := ["machine learning", "generative ai", "cybersecurity"]

/-- The batch size of the selection query. -/
def batch_size : Nat := 100

/-- `octopus.db.models.url_content.URLContent` rows (the content cache).
  The table has a unique constraint on `url`. -/
structure URLContentRow where
  id : Nat
  url : String
  target_content : Option String
  extracted_at : Int
  last_checked_at : Int
  deriving Repr, DecidableEq

/-- `octopus.db.models.summaries.ItemEntityRelation` rows.  `context` keeps
  the raw YAML value handed to the ORM. -/
structure ItemEntityRelationRow where
  item_id : Nat
  entity_id : Nat
  relation_value : ℚ
  context : StoryProc.YScalar
  deriving Repr, DecidableEq

/-- The relational store as seen by the email pipeline.  `next*Id` model the
  autoincrement counters; `ProcessedItem.entities` stays `[]` here (that
  field is the digest generator's `joinedload` view, not a column). -/
structure EmailStore where
  emailStories : List EmailStory
  processedItems : List ProcessedItem
  itemTags : List ItemTag
  itemTagRelations : List ItemTagRelation
  itemEntities : List ItemEntity
  itemEntityRelations : List ItemEntityRelationRow
  urlContents : List URLContentRow
  nextProcessedItemId : Nat
  nextTagId : Nat
  nextEntityId : Nat
  nextUrlContentId : Nat

/-- One step of `ensure_required_tags`: insert the tag if no row carries its
  name. -/
def addTagIfMissing (st : EmailStore) (tag_name : String) : EmailStore :=
  if st.itemTags.any (fun t => t.name == tag_name) then st
  else { st with itemTags := st.itemTags ++ [⟨st.nextTagId, tag_name⟩],
                 nextTagId := st.nextTagId + 1 }

/-- `ensure_required_tags(db, required_tags)` from `octopus/db/operations.py`:
  insert each missing tag name. -/
def ensure_required_tags (store : EmailStore) (required_tags : List String) : EmailStore :=
  required_tags.foldl addTagIfMissing store

/-- `get_or_create_tag(db, tag_name)` from `octopus/db/operations.py`. -/
def get_or_create_tag (store : EmailStore) (tag_name : String) : ItemTag × EmailStore :=
  match store.itemTags.find? (fun t => t.name == tag_name) with
  | some tag => (tag, store)
  | none =>
      let tag : ItemTag := ⟨store.nextTagId, tag_name⟩
      (tag, { store with itemTags := store.itemTags ++ [tag],
                         nextTagId := store.nextTagId + 1 })

/-- `get_or_create_entity(db, name, entity_type)` from
  `octopus/db/operations.py`. -/
def get_or_create_entity (store : EmailStore) (name entity_type : String) :
    ItemEntity × EmailStore :=
  match store.itemEntities.find? (fun e => e.name == name && e.type == entity_type) with
  | some entity => (entity, store)
  | none =>
      let entity : ItemEntity := ⟨store.nextEntityId, name, entity_type⟩
      (entity, { store with itemEntities := store.itemEntities ++ [entity],
                            nextEntityId := store.nextEntityId + 1 })

/-- The string the ORM ends up storing for a YAML value used as an entity
  name (names are strings in practice). -/
def yscalarToDbStr : StoryProc.YScalar → String
  | StoryProc.YScalar.str s => s
  | StoryProc.YScalar.num q => toString q
  | StoryProc.YScalar.bool b => if b then "True" else "False"
  | StoryProc.YScalar.null => "None"

/-- `dict(tags)`: later pairs overwrite earlier values, keys keep first
  insertion order. -/
def dictOfPairs (l : List (String × ℚ)) : List (String × ℚ) :=
  l.foldl
    (fun d p =>
      if d.any (fun q => q.1 == p.1) then
        d.map (fun q => if q.1 == p.1 then (q.1, p.2) else q)
      else d ++ [p])
    []

/-- The content-resolution block of `process_email_stories`
  (lines 96-119): when the story has no target content but has a URL, look
  the URL up in the cache; a hit with truthy content is attached directly; a
  miss (or a hit with falsy content) calls the extractor, attaching and
  caching the result only when it is truthy.  Returns the (possibly
  updated) story, the (possibly extended) store, and whether the extractor
  was called. -/
def resolveStoryContent (store : EmailStore) (story : EmailStory)
    (extract : String → Option String) (now : Int) :
    Except String (EmailStory × EmailStore × Bool) :=
  if ¬ pyTruthyStr story.target_content ∧ story.url ≠ "" then
    let extractBranch : EmailStory × EmailStore × Bool :=
      let content := extract story.url
      if pyTruthyStr content then
        ({ story with target_content := content },
         { store with
             urlContents := store.urlContents ++
               [⟨store.nextUrlContentId, story.url, content, now, now⟩],
             nextUrlContentId := store.nextUrlContentId + 1 },
         true)
      else (story, store, true)
    match store.urlContents.filter (fun uc => uc.url == story.url) with
    | [] => Except.ok extractBranch
    | [url_content] =>
        if pyTruthyStr url_content.target_content then
          Except.ok ({ story with target_content := url_content.target_content }, store, false)
        else Except.ok extractBranch
    | _ => Except.error "MultipleResultsFound"
  else Except.ok (story, store, false)

/-- `scalar_one_or_none` for the per-story `ProcessedItem` lookup. -/
def findProcessedItem (store : EmailStore) (story_id : Nat) :
    Except String (Option ProcessedItem) :=
  match store.processedItems.filter
      (fun pi => pi.related_item_type == "email_story" && pi.related_item_id == story_id) with
  | [] => Except.ok none
  | [pi] => Except.ok (some pi)
  | _ => Except.error "MultipleResultsFound"

/-- The body of the `for story in stories` loop (lines 85-194): skip already
  processed stories, resolve content (committing the mutation), skip empty
  content, run the analysis, then create/replace the `ProcessedItem` and its
  tag and entity relations.  A caught `EmptySummaryResult` is a skip; any
  other exception aborts the run. -/
def processBatchItem (force_regenerate : Bool) (extract : String → Option String)
    (llmResponse : EmailStory → StoryProc.AnalysisResponse) (now : Int)
    (store : EmailStore) (story : EmailStory) : Except String EmailStore := do
  let processed_item ← findProcessedItem store story.id
  if processed_item.isSome ∧ ¬ force_regenerate then pure store
  else do
    let r ← resolveStoryContent store story extract now
    let story := r.1
    -- db.commit(): the mutated story is persisted
    let store := { r.2.1 with
      emailStories := r.2.1.emailStories.map (fun st => if st.id = story.id then story else st) }
    if ¬ pyTruthyStr story.target_content then pure store
    else
      match StoryProc.process_content REQUIRED_TAGS (some story.title)
          story.target_content none (llmResponse story) with
      | StoryProc.PCResult.raises "EmptySummaryResult" => pure store
      | StoryProc.PCResult.raises e => Except.error e
      | StoryProc.PCResult.ok summary tags entities =>
        let upd : Option ProcessedItem × EmailStore :=
          if force_regenerate then
            match processed_item with
            | some pi =>
                -- delete the existing relations, then update the item in place
                let st := { store with
                  itemTagRelations := store.itemTagRelations.filter (fun r => r.item_id ≠ pi.id),
                  itemEntityRelations :=
                    store.itemEntityRelations.filter (fun r => r.item_id ≠ pi.id) }
                let pi' := { pi with created_at := now, summary := summary }
                (some pi',
                 { st with processedItems :=
                     st.processedItems.map (fun x => if x.id = pi.id then pi' else x) })
            | none => (none, store)
          else (processed_item, store)
        let made : ProcessedItem × EmailStore :=
          match upd.1 with
          | none =>
              let pi : ProcessedItem :=
                ⟨upd.2.nextProcessedItemId, now, summary, "email_story", story.id, []⟩
              (pi, { upd.2 with processedItems := upd.2.processedItems ++ [pi],
                                nextProcessedItemId := upd.2.nextProcessedItemId + 1 })
          | some pi => (pi, upd.2)
        let processed_item := made.1
        -- tag_dict = dict(tags); required tags at 0.0 when absent
        let tag_dict := dictOfPairs tags
        let tag_dict := REQUIRED_TAGS.foldl
          (fun d required_tag =>
            if d.any (fun p => p.1 == required_tag) then d
            else d ++ [(required_tag, (0 : ℚ))])
          tag_dict
        let store := tag_dict.foldl
          (fun st p =>
            let gc := get_or_create_tag st p.1
            { gc.2 with itemTagRelations :=
                gc.2.itemTagRelations ++ [⟨processed_item.id, gc.1.id, p.2⟩] })
          made.2
        let store := entities.foldl
          (fun st e =>
            let gc := get_or_create_entity st (yscalarToDbStr e.1) e.2.1
            { gc.2 with itemEntityRelations :=
                gc.2.itemEntityRelations ++
                  [⟨processed_item.id, gc.1.id, e.2.2.1, e.2.2.2⟩] })
          store
        pure store

/-- The batch selection (lines 65-78): `EmailStory` outer-joined against its
  `ProcessedItem`; without force-regenerate only stories with no matching
  `ProcessedItem` survive, then `LIMIT batch_size OFFSET offset`. -/
def selectBatch (force_regenerate : Bool) (store : EmailStore) (offset : Nat) :
    List EmailStory :=
  let selected :=
    if force_regenerate then store.emailStories
    else store.emailStories.filter (fun st =>
      ¬ store.processedItems.any (fun pi =>
        pi.related_item_type == "email_story" && pi.related_item_id == st.id))
  (selected.drop offset).take batch_size

/-- The `while True` batch loop.  `fuel` bounds the number of rounds; the
  caller supplies more fuel than the store can ever consume, so the `0` case
  is unreachable. -/
def processLoop (force_regenerate : Bool) (extract : String → Option String)
    (llmResponse : EmailStory → StoryProc.AnalysisResponse) (now : Int) :
    Nat → Nat → EmailStore → Except String EmailStore
  | 0, _, store => Except.ok store
  | fuel + 1, offset, store =>
    let stories := selectBatch force_regenerate store offset
    if stories = [] then Except.ok store
    else do
      let store ← stories.foldlM
        (fun st story => processBatchItem force_regenerate extract llmResponse now st story)
        store
      processLoop force_regenerate extract llmResponse now fuel (offset + batch_size) store

/-- `process_email_stories(force_regenerate)`. -/
def process_email_stories (force_regenerate : Bool)
    (extract : String → Option String)
    (llmResponse : EmailStory → StoryProc.AnalysisResponse) (now : Int)
    (store : EmailStore) : Except String EmailStore :=
  let store := ensure_required_tags store REQUIRED_TAGS
  processLoop force_regenerate extract llmResponse now
    (store.emailStories.length + 1) 0 store

/-! ### DiffBotExtractor.extract_content -/

/-- An HTTP response from the DiffBot API, per attempt: a successful JSON
  body carrying `data["objects"]` (each object with its optional `text`
  field; a body without the key behaves as an empty list), or an HTTP error
  status raised by `raise_for_status`. -/
inductive HttpResp
  | ok (objects : List (Option String))
  | httpError (status : Nat)
  deriving Repr, DecidableEq

/-- The `while attempt < max_retries` loop of `extract_content`: a success
  returns the first object's `text`; a 429 with retries left backs off and
  retries; any other HTTP error (or a final 429) returns `None`.  `fuel`
  is `max_retries - attempt`. -/
def extractGo (responses : Nat → HttpResp) (max_retries : Nat) :
    Nat → Nat → Option String
  | _, 0 => none
  | attempt, fuel + 1 =>
    match responses attempt with
    | HttpResp.ok objects =>
        match objects with
        | article :: _ => article
        | [] => none
    | HttpResp.httpError status =>
        if status = 429 ∧ attempt < max_retries - 1 then
          extractGo responses max_retries (attempt + 1) fuel
        else none

/-- `DiffBotExtractor.extract_content(url, max_retries, initial_delay)`:
  `mailto:` URLs short-circuit to `None`; otherwise run the retry loop
  (the backoff delay has no observable effect here). -/
def extract_content (responses : Nat → HttpResp) (url : String)
    (max_retries : Nat) : Option String :=
  if strStarts url "mailto:" then none
  else extractGo responses max_retries 0 max_retries

end EmailPipeline

namespace TechDigest

/-- The sorted `story_sizes` list the degrade pass walks:
  `(index, content_length)` pairs in content-length-descending order
  (Python's `sort` is stable, as is `insertionSort`). -/
def sortedSizes (stories : List ProcessedItem) (db : Db) : List (Nat × Nat) :=
  List.insertionSort lenDescRel
    ((List.range stories.length).zip (contentLens stories db))

/-- Declarative form of the tag-join condition of `get_relevant_stories`:
  some tag relation of the item reaches the score threshold with a tag whose
  name is in `RELEVANT_TAGS`. -/
def qualTag (db : Db) (min_score : ℚ) (item : ProcessedItem) : Prop :=
  ∃ rel ∈ db.itemTagRelations, rel.item_id = item.id ∧
    min_score ≤ rel.relation_value ∧
    ∃ tag ∈ db.itemTags, tag.id = rel.tag_id ∧ tag.name ∈ RELEVANT_TAGS

end TechDigest

namespace DigestContext

/-- The stories on which `digest_context.format_story_context` does not
  raise: no entity relations (otherwise the `entity.entity_type` access
  raises), and an email story must resolve to a row with truthy
  `target_content` (otherwise the `related_story.content` access raises). -/
def dcSafe (db : Db) (story : ProcessedItem) : Bool :=
  decide (story.entities = []) &&
  (if story.related_item_type = "email_story" then
     match db.emailStories story.related_item_id with
     | some rs => pyTruthyStr rs.target_content
     | none => true
   else true)

end DigestContext

namespace StoryProc

/-- Declarative form of the condition under which the validation loop keeps
  an entity: all four fields truthy, a string type in the vocabulary, and a
  convertible score within `[0, 1]`. -/
def entityValid (e : RawEntity) : Bool :=
  truthy e.name && truthy e.type && truthy e.score && truthy e.context &&
  (match e.type with
   | some (YScalar.str t) => valid_types.contains t
   | _ => false) &&
  (match e.score with
   | some sc =>
     match pyFloat sc with
     | Except.ok q => decide (0 ≤ q ∧ q ≤ 1)
     | Except.error _ => false
   | none => false)

/-- The validity condition exactly as the specification states it: an entity
  is dropped only when a required field is *missing*, the type is outside
  the vocabulary, or the score is non-numeric or outside `[0, 1]`.  (This
  follows the spec's wording, for comparison with `entityValid`; the two
  differ on present-but-falsy fields such as a score of `0`.) -/
def claimEntityValid (e : RawEntity) : Bool :=
  e.name.isSome && e.type.isSome && e.score.isSome && e.context.isSome &&
  (match e.type with
   | some (YScalar.str t) => valid_types.contains t
   | _ => false) &&
  (match e.score with
   | some sc =>
     match pyFloat sc with
     | Except.ok q => decide (0 ≤ q ∧ q ≤ 1)
     | Except.error _ => false
   | none => false)

end StoryProc

namespace Fixtures

/-! Concrete inputs used by counterexamples and witnesses. -/

open TechDigest StoryProc EmailPipeline GenAI

/-- A string of `n` copies of a letter. -/
def mkContent (n : Nat) : String := String.mk (List.replicate n 'a')

/-- HN stories 1-5 with 50-character contents (db for counterexample 1). -/
def dbFive : Db where
  stories := fun i =>
    if 1 ≤ i ∧ i ≤ 5 then some ⟨i, none, "A", none, some (mkContent 50)⟩ else none
  emailStories := fun _ => none
  telegramStories := fun _ => none
  processedItems := []
  itemTags := []
  itemTagRelations := []

def qItem (i : Nat) : ProcessedItem := ⟨i, 0, "s", "hacker_news_story", i, []⟩

def qItems : List ProcessedItem := [qItem 1, qItem 2, qItem 3, qItem 4, qItem 5]

/-- HN story 1 with long content and story 2 with short content (db for
  counterexample 2: item 2's summary is much longer than its content). -/
def dbTwo : Db where
  stories := fun i =>
    if i = 1 then some ⟨1, none, "A", none, some (mkContent 60)⟩
    else if i = 2 then some ⟨2, none, "B", none, some "abc"⟩
    else none
  emailStories := fun _ => none
  telegramStories := fun _ => none
  processedItems := []
  itemTags := []
  itemTagRelations := []

def pShortSummary : ProcessedItem := ⟨1, 0, "s", "hacker_news_story", 1, []⟩

def pLongSummary : ProcessedItem :=
  ⟨2, 0, String.mk (List.replicate 200 'b'), "hacker_news_story", 2, []⟩

/-- A telegram-backed item carrying one entity relation (the
  `digest_context` formatter raises on it). -/
def pWithEntity : ProcessedItem :=
  ⟨3, 0, "s", "telegram_story", 7, [⟨⟨1, "OpenAI", "company"⟩⟩]⟩

def dbTelegram : Db where
  stories := fun _ => none
  emailStories := fun _ => none
  telegramStories := fun i => if i = 7 then some ⟨7, "chan", "42", "hello world"⟩ else none
  processedItems := []
  itemTags := []
  itemTagRelations := []

/-- A db with one qualifying processed item whose `created_at` equals the
  end of the requested range. -/
def itemAtEnd : ProcessedItem := ⟨1, 10, "s", "hacker_news_story", 1, []⟩

def dbAtEnd : Db where
  stories := fun _ => none
  emailStories := fun _ => none
  telegramStories := fun _ => none
  processedItems := [itemAtEnd]
  itemTags := [⟨1, "machine learning"⟩]
  itemTagRelations := [⟨1, 1, mkRat 9 10⟩]

/-- An entirely empty db (digest no-op witness). -/
def dbEmpty : Db where
  stories := fun _ => none
  emailStories := fun _ => none
  telegramStories := fun _ => none
  processedItems := []
  itemTags := []
  itemTagRelations := []

/-- Five raw entities, of which the second (missing context) and the fourth
  (type outside the vocabulary) are invalid. -/
def entValid1 : RawEntity :=
  ⟨some (YScalar.str "OpenAI"), some (YScalar.str "company"),
   some (YScalar.num (mkRat 9 10)), some (YScalar.str "mentioned")⟩

def entMissingContext : RawEntity :=
  ⟨some (YScalar.str "Anthropic"), some (YScalar.str "company"),
   some (YScalar.num (mkRat 8 10)), none⟩

def entValid2 : RawEntity :=
  ⟨some (YScalar.str "PyTorch"), some (YScalar.str "framework"),
   some (YScalar.num (mkRat 1 2)), some (YScalar.str "used")⟩

def entBadType : RawEntity :=
  ⟨some (YScalar.str "Octopus"), some (YScalar.str "animal"),
   some (YScalar.num (mkRat 1 2)), some (YScalar.str "pet")⟩

def entValid3 : RawEntity :=
  ⟨some (YScalar.str "Sam"), some (YScalar.str "person"),
   some (YScalar.str "0.75"), some (YScalar.str "quoted")⟩

def entFive : List RawEntity :=
  [entValid1, entMissingContext, entValid2, entBadType, entValid3]

/-- A fully present, vocabulary-typed, numeric, in-range entity whose score
  is `0`: valid according to the claim, dropped by the code's truthiness
  check. -/
def entScoreZero : RawEntity :=
  ⟨some (YScalar.str "Acme"), some (YScalar.str "company"),
   some (YScalar.num 0), some (YScalar.str "ctx")⟩

/-- A parsed analysis document omitting the required tags. -/
def docNoRequired : YDoc :=
  ⟨some (SummaryVal.scalar "a summary"),
   some [⟨some "rust", some (YScalar.num (mkRat 7 10))⟩],
   [entScoreZero]⟩

/-- A parser that accepts nothing (for retry-exhaustion witnesses). -/
def parseNever : String → Except String Unit :=
  fun _ => Except.error "mapping values are not allowed here"

/-- A RAW-format parser: the cleaned text is returned verbatim. -/
def parseRaw : String → Except String String := fun s => Except.ok s

/-- A completion endpoint that always answers. -/
def alwaysRespond : Nat → Except String String := fun _ => Except.ok "resp"

/-- An email store in which the single email story already has its
  `ProcessedItem` (idempotent-rerun witness). -/
def storeDone : EmailStore where
  emailStories := [⟨1, "http://x", "T", some "body"⟩]
  processedItems := [⟨1, 0, "s", "email_story", 1, []⟩]
  itemTags := [⟨1, "machine learning"⟩, ⟨2, "generative ai"⟩, ⟨3, "cybersecurity"⟩]
  itemTagRelations := []
  itemEntities := []
  itemEntityRelations := []
  urlContents := []
  nextProcessedItemId := 2
  nextTagId := 4
  nextEntityId := 1
  nextUrlContentId := 1

/-- A store whose cache row for `http://x` has empty-string (non-null but
  falsy) content. -/
def storeEmptyCache : EmailStore where
  emailStories := []
  processedItems := []
  itemTags := []
  itemTagRelations := []
  itemEntities := []
  itemEntityRelations := []
  urlContents := [⟨1, "http://x", some "", 0, 0⟩]
  nextProcessedItemId := 1
  nextTagId := 1
  nextEntityId := 1
  nextUrlContentId := 2

/-- A store whose cache row for `http://x` has real content. -/
def storeGoodCache : EmailStore where
  emailStories := []
  processedItems := []
  itemTags := []
  itemTagRelations := []
  itemEntities := []
  itemEntityRelations := []
  urlContents := [⟨1, "http://x", some "cached text", 0, 0⟩]
  nextProcessedItemId := 1
  nextTagId := 1
  nextEntityId := 1
  nextUrlContentId := 2

/-- An empty store (cache-miss cases). -/
def storeEmpty : EmailStore where
  emailStories := []
  processedItems := []
  itemTags := []
  itemTagRelations := []
  itemEntities := []
  itemEntityRelations := []
  urlContents := []
  nextProcessedItemId := 1
  nextTagId := 1
  nextEntityId := 1
  nextUrlContentId := 1

def storyNoContent : EmailStory := ⟨1, "http://x", "T", none⟩

/-- An extractor that always fails. -/
def extractFails : String → Option String := fun _ => none

/-- An extraction-service oracle that always answers HTTP 429. -/
def always429 : Nat → EmailPipeline.HttpResp := fun _ => HttpResp.httpError 429

end Fixtures

/-! # Theorems -/

section ListHelpers

variable {α : Type}

theorem getD_set_self (ps : List α) (i : Nat) (a d : α) (h : i < ps.length) :
    (ps.set i a).getD i d = a := by
  induction ps generalizing i with
  | nil => simp at h
  | cons x xs ih =>
    cases i with
    | zero => simp [List.set, List.getD]
    | succ n =>
      simp only [List.set, List.getD_cons_succ]
      exact ih n (by simpa using h)

theorem getD_set_ne (ps : List α) (i j : Nat) (a d : α) (h : i ≠ j) :
    (ps.set i a).getD j d = ps.getD j d := by
  induction ps generalizing i j with
  | nil => simp [List.set]
  | cons x xs ih =>
    cases i with
    | zero =>
      cases j with
      | zero => exact absurd rfl h
      | succ m => simp [List.set]
    | succ n =>
      cases j with
      | zero => simp [List.set]
      | succ m =>
        simp only [List.set, List.getD_cons_succ]
        exact ih n m (fun hnm => h (by rw [hnm]))

end ListHelpers

namespace TechDigest

theorem estSum_nil : estSum [] = 0 := rfl

theorem estSum_cons (s : String) (l : List String) :
    estSum (s :: l) = (_estimate_tokens s : Int) + estSum l := by
  simp [estSum]

theorem estSum_set (ps : List String) (i : Nat) (a : String) (h : i < ps.length) :
    estSum (ps.set i a) =
      estSum ps - (_estimate_tokens (ps.getD i "") : Int) + (_estimate_tokens a : Int) := by
  induction ps generalizing i with
  | nil => simp at h
  | cons x xs ih =>
    cases i with
    | zero => simp [List.set, estSum_cons, List.getD]; ring
    | succ n =>
      simp only [List.set, estSum_cons, List.getD_cons_succ]
      rw [ih n (by simpa using h)]
      ring

theorem applyDegr_nil (summaryOf : Nat → String) (parts : List String) :
    applyDegr summaryOf parts [] = parts := rfl

theorem applyDegr_cons (summaryOf : Nat → String) (parts : List String)
    (p : Nat × Nat) (l : List (Nat × Nat)) :
    applyDegr summaryOf parts (p :: l) =
      applyDegr summaryOf (parts.set p.1 (summaryOf p.1)) l := rfl

theorem applyDegr_length (summaryOf : Nat → String) (l : List (Nat × Nat))
    (parts : List String) :
    (applyDegr summaryOf parts l).length = parts.length := by
  induction l generalizing parts with
  | nil => rfl
  | cons p l ih => simp [applyDegr_cons, ih]

theorem applyDegr_getD_of_not_mem (summaryOf : Nat → String)
    (l : List (Nat × Nat)) (parts : List String) (i : Nat) (d : String)
    (h : i ∉ l.map Prod.fst) :
    (applyDegr summaryOf parts l).getD i d = parts.getD i d := by
  induction l generalizing parts with
  | nil => rfl
  | cons p l ih =>
    simp only [List.map_cons, List.mem_cons, not_or] at h
    rw [applyDegr_cons, ih _ h.2, getD_set_ne _ _ _ _ _ (fun hp => h.1 hp.symm)]

theorem applyDegr_getD_of_mem (summaryOf : Nat → String)
    (l : List (Nat × Nat)) (parts : List String) (i : Nat) (d : String)
    (h : i ∈ l.map Prod.fst) (hlen : i < parts.length) :
    (applyDegr summaryOf parts l).getD i d = summaryOf i := by
  induction l generalizing parts with
  | nil => simp at h
  | cons p l ih =>
    rw [applyDegr_cons]
    by_cases hm : i ∈ l.map Prod.fst
    · exact ih _ hm (by simpa using hlen)
    · simp only [List.map_cons, List.mem_cons] at h
      rcases h with h | h
      · subst h
        rw [applyDegr_getD_of_not_mem _ _ _ _ _ hm,
          getD_set_self _ _ _ _ hlen]
      · exact absurd h hm

theorem degradeGo_spec (avail : Int) (summaryOf : Nat → String) :
    ∀ (l : List (Nat × Nat)) (ps : List String),
      (∀ p ∈ l, p.1 < ps.length) →
      ∃ k, k ≤ l.length ∧
        degradeGo avail summaryOf l ps (estSum ps) =
          (applyDegr summaryOf ps (l.take k),
           estSum (applyDegr summaryOf ps (l.take k))) ∧
        (∀ j < k, avail < estSum (applyDegr summaryOf ps (l.take j))) ∧
        (k = l.length ∨ estSum (applyDegr summaryOf ps (l.take k)) ≤ avail) := by
  intro l
  induction l with
  | nil =>
    intro ps _
    exact ⟨0, by simp [degradeGo, applyDegr_nil]⟩
  | cons p l ih =>
    intro ps hb
    by_cases hle : estSum ps ≤ avail
    · refine ⟨0, by simp, ?_, by simp, Or.inr (by simpa using hle)⟩
      obtain ⟨i, s⟩ := p
      simp [degradeGo, hle, applyDegr_nil]
    · have hi : p.1 < ps.length := hb p (List.mem_cons_self p l)
      have hset : estSum (ps.set p.1 (summaryOf p.1)) =
          estSum ps - (_estimate_tokens (ps.getD p.1 "") : Int) +
            (_estimate_tokens (summaryOf p.1) : Int) :=
        estSum_set ps p.1 (summaryOf p.1) hi
      have hb' : ∀ q ∈ l, q.1 < (ps.set p.1 (summaryOf p.1)).length := by
        intro q hq
        simpa using hb q (List.mem_cons_of_mem p hq)
      obtain ⟨k, hk, heq, hgt, hstop⟩ := ih (ps.set p.1 (summaryOf p.1)) hb'
      refine ⟨k + 1, by simpa using Nat.succ_le_succ hk, ?_, ?_, ?_⟩
      · obtain ⟨i, s⟩ := p
        simp only [degradeGo, if_neg (by exact fun h => hle h)]
        rw [← hset]
        simpa [List.take, applyDegr_cons] using heq
      · intro j hj
        cases j with
        | zero => simpa [applyDegr_nil] using lt_of_not_le hle
        | succ m =>
          have hm : m < k := Nat.lt_of_succ_lt_succ hj
          simpa [List.take, applyDegr_cons] using hgt m hm
      · rcases hstop with h | h
        · exact Or.inl (by simp [h])
        · exact Or.inr (by simpa [List.take, applyDegr_cons] using h)

end TechDigest

namespace TechDigest

theorem fullParts_length (stories : List ProcessedItem) (db : Db) :
    (fullParts stories db).length = stories.length := by
  simp [fullParts]

theorem summaryParts_length (stories : List ProcessedItem) (db : Db) :
    (summaryParts stories db).length = stories.length := by
  simp [summaryParts]

theorem sortedSizes_def (stories : List ProcessedItem) (db : Db) :
    sortedSizes stories db =
      List.insertionSort lenDescRel
        ((List.range stories.length).zip (contentLens stories db)) := rfl

theorem sortedSizes_perm (stories : List ProcessedItem) (db : Db) :
    List.Perm (sortedSizes stories db)
      ((List.range stories.length).zip (contentLens stories db)) :=
  List.perm_insertionSort lenDescRel _

theorem sortedSizes_length (stories : List ProcessedItem) (db : Db) :
    (sortedSizes stories db).length = stories.length := by
  rw [(sortedSizes_perm stories db).length_eq]
  simp [contentLens]

theorem sortedSizes_sorted (stories : List ProcessedItem) (db : Db) :
    List.Sorted lenDescRel (sortedSizes stories db) :=
  List.sorted_insertionSort lenDescRel _

theorem sortedSizes_fst_lt (stories : List ProcessedItem) (db : Db) :
    ∀ p ∈ sortedSizes stories db, p.1 < stories.length := by
  intro p hp
  have hz : p ∈ (List.range stories.length).zip (contentLens stories db) :=
    (sortedSizes_perm stories db).mem_iff.mp hp
  have := (List.of_mem_zip hz).1
  simpa using this

theorem sortedSizes_fst_perm (stories : List ProcessedItem) (db : Db) :
    List.Perm ((sortedSizes stories db).map Prod.fst) (List.range stories.length) := by
  have h := (sortedSizes_perm stories db).map Prod.fst
  rwa [List.map_fst_zip _ _ (by simp [contentLens])] at h

theorem mem_sortedSizes_fst (stories : List ProcessedItem) (db : Db) (i : Nat)
    (h : i < stories.length) : i ∈ (sortedSizes stories db).map Prod.fst :=
  (sortedSizes_fst_perm stories db).mem_iff.mpr (List.mem_range.mpr h)

/-- The degrade-pass characterization of `contextParts`: the returned blocks
  are the full blocks with the first `k` entries of the size-sorted list
  degraded, for a `k` that is minimal (every strictly shorter prefix leaves
  the running total above the budget) and exhaustive-or-sufficient (either
  all entries were degraded, or the final total fits). -/
theorem contextParts_spec (stories : List ProcessedItem) (prompt_tokens : Nat)
    (db : Db) :
    ∃ k, k ≤ stories.length ∧
      contextParts stories prompt_tokens db =
        applyDegr (summOf stories db) (fullParts stories db)
          ((sortedSizes stories db).take k) ∧
      (∀ j < k,
        MAX_CONTEXT_TOKENS - (prompt_tokens : Int) <
          estSum (applyDegr (summOf stories db) (fullParts stories db)
            ((sortedSizes stories db).take j))) ∧
      (k = stories.length ∨
        estSum (contextParts stories prompt_tokens db) ≤
          MAX_CONTEXT_TOKENS - (prompt_tokens : Int)) := by
  by_cases hgt :
      estSum (fullParts stories db) > MAX_CONTEXT_TOKENS - (prompt_tokens : Int)
  · have hb : ∀ p ∈ sortedSizes stories db, p.1 < (fullParts stories db).length := by
      intro p hp
      rw [fullParts_length]
      exact sortedSizes_fst_lt stories db p hp
    obtain ⟨k, hk, heq, hgtj, hstop⟩ :=
      degradeGo_spec (MAX_CONTEXT_TOKENS - (prompt_tokens : Int)) (summOf stories db)
        (sortedSizes stories db) (fullParts stories db) hb
    have hcp : contextParts stories prompt_tokens db =
        applyDegr (summOf stories db) (fullParts stories db)
          ((sortedSizes stories db).take k) := by
      simp only [contextParts, if_pos hgt]
      rw [← sortedSizes_def stories db, heq]
    refine ⟨k, ?_, hcp, hgtj, ?_⟩
    · rw [← sortedSizes_length stories db]; exact hk
    · rcases hstop with h | h
      · exact Or.inl (by rw [← sortedSizes_length stories db]; exact h)
      · exact Or.inr (by rw [hcp]; exact h)
  · refine ⟨0, Nat.zero_le _, ?_, by simp, Or.inr ?_⟩
    · simp only [contextParts, if_neg hgt]
      rfl
    · have : contextParts stories prompt_tokens db = fullParts stories db := by
        simp only [contextParts, if_neg hgt]
      rw [this]
      exact le_of_not_lt hgt

theorem contextParts_length (stories : List ProcessedItem) (prompt_tokens : Nat)
    (db : Db) :
    (contextParts stories prompt_tokens db).length = stories.length := by
  obtain ⟨k, _, heq, _, _⟩ := contextParts_spec stories prompt_tokens db
  rw [heq, applyDegr_length, fullParts_length]

/-- Each returned block sits at its story's original position and is either
  that story's full block or its summary block. -/
theorem contextParts_getD (stories : List ProcessedItem) (prompt_tokens : Nat)
    (db : Db) (i : Nat) (h : i < stories.length) :
    (contextParts stories prompt_tokens db).getD i "" =
        (_format_story_context (stories.getD i ⟨0, 0, "", "", 0, []⟩) db false).1 ∨
      (contextParts stories prompt_tokens db).getD i "" =
        (_format_story_context (stories.getD i ⟨0, 0, "", "", 0, []⟩) db true).1 := by
  obtain ⟨k, _, heq, _, _⟩ := contextParts_spec stories prompt_tokens db
  rw [heq]
  by_cases hm : i ∈ ((sortedSizes stories db).take k).map Prod.fst
  · right
    rw [applyDegr_getD_of_mem _ _ _ _ _ hm (by rw [fullParts_length]; exact h)]
    simp [summOf, summaryParts, List.getD_eq_getElem?_getD, List.getElem?_map,
      List.getElem?_eq_getElem h, List.getD]
  · left
    rw [applyDegr_getD_of_not_mem _ _ _ _ _ hm]
    simp [fullParts, List.getD_eq_getElem?_getD, List.getElem?_map,
      List.getElem?_eq_getElem h, List.getD]

end TechDigest

namespace TechDigest

/-- Degrading every entry of the sorted size list turns the full blocks into
  exactly the summary blocks. -/
theorem applyDegr_all (stories : List ProcessedItem) (db : Db) :
    applyDegr (summOf stories db) (fullParts stories db) (sortedSizes stories db) =
      summaryParts stories db := by
  have hlen : (applyDegr (summOf stories db) (fullParts stories db)
      (sortedSizes stories db)).length = stories.length := by
    rw [applyDegr_length, fullParts_length]
  apply List.ext_getElem?
  intro i
  by_cases h : i < stories.length
  · have h₁ : (applyDegr (summOf stories db) (fullParts stories db)
        (sortedSizes stories db)).getD i "" = summOf stories db i :=
      applyDegr_getD_of_mem _ _ _ _ _ (mem_sortedSizes_fst stories db i h)
        (by rw [fullParts_length]; exact h)
    have h₂ : summOf stories db i = (summaryParts stories db).getD i "" := rfl
    have hi₁ : i < (applyDegr (summOf stories db) (fullParts stories db)
        (sortedSizes stories db)).length := by rw [hlen]; exact h
    have hi₂ : i < (summaryParts stories db).length := by
      rw [summaryParts_length]; exact h
    rw [List.getElem?_eq_getElem hi₁, List.getElem?_eq_getElem hi₂]
    have := h₁.trans h₂
    rwa [List.getD_eq_getElem _ _ hi₁, List.getD_eq_getElem _ _ hi₂,
      Option.some_inj.symm] at this
  · rw [List.getElem?_eq_none (by rw [hlen]; omega),
      List.getElem?_eq_none (by rw [summaryParts_length]; omega)]

end TechDigest

open TechDigest Fixtures in
/-- C1 (amended).  For every story list, reserved prompt-token count and
  database, `prepare_context` returns (it cannot throw) the newline-join of
  one block per story; whenever the sum of per-block token estimates with
  every story degraded to its summary is within the available budget
  (`MAX_CONTEXT_TOKENS - prompt_tokens`), the sum of per-block estimates of
  the returned blocks is within that budget (the joined string's own
  estimate may exceed it by the uncounted newline separators and floor
  rounding); and whenever the sum of per-block estimates of the returned
  blocks exceeds the budget, every story's block is its summary block. -/
theorem c1_prepare_context_budget (stories : List ProcessedItem)
    (prompt_tokens : Nat) (db : Db) :
    prepare_context stories prompt_tokens db =
        String.intercalate "\n" (contextParts stories prompt_tokens db) ∧
    (contextParts stories prompt_tokens db).length = stories.length ∧
    (estSum (summaryParts stories db) ≤ MAX_CONTEXT_TOKENS - (prompt_tokens : Int) →
      estSum (contextParts stories prompt_tokens db) ≤
        MAX_CONTEXT_TOKENS - (prompt_tokens : Int)) ∧
    (MAX_CONTEXT_TOKENS - (prompt_tokens : Int) <
        estSum (contextParts stories prompt_tokens db) →
      contextParts stories prompt_tokens db = summaryParts stories db) := by
  refine ⟨rfl, contextParts_length stories prompt_tokens db, ?_, ?_⟩
  · intro hfit
    obtain ⟨k, hk, heq, _, hstop⟩ := contextParts_spec stories prompt_tokens db
    rcases hstop with hkn | hle
    · have htake : (sortedSizes stories db).take k = sortedSizes stories db := by
        rw [hkn, ← sortedSizes_length stories db]
        exact List.take_length _
      rw [heq, htake, applyDegr_all]
      exact hfit
    · exact hle
  · intro hover
    obtain ⟨k, hk, heq, _, hstop⟩ := contextParts_spec stories prompt_tokens db
    rcases hstop with hkn | hle
    · have htake : (sortedSizes stories db).take k = sortedSizes stories db := by
        rw [hkn, ← sortedSizes_length stories db]
        exact List.take_length _
      rw [heq, htake, applyDegr_all]
    · exact absurd hle (not_le.mpr hover)

open TechDigest Fixtures in
/-- C1 counterexample, refuting the claim as stated at two explicit inputs.
  First input (five identical items, budget 125): degrading every item to
  its summary fits the budget under either reading (per-block estimate sum
  65, joined-string estimate 68), yet the returned context's estimated token
  count is 129 > 125.  Second input (budget 30, item 2's summary longer than
  its content): the fully-degraded context exceeds the budget under either
  reading (76 and 77), yet item 2's block is left at full content, which
  differs from its summary block. -/
theorem c1_counterexample :
    (_estimate_tokens (String.intercalate "\n" (summaryParts qItems dbFive)) ≤ 125 ∧
     estSum (summaryParts qItems dbFive) ≤ 125 ∧
     MAX_CONTEXT_TOKENS - (99875 : Int) = 125 ∧
     125 < (_estimate_tokens (prepare_context qItems 99875 dbFive) : Int)) ∧
    (MAX_CONTEXT_TOKENS - (99970 : Int) = 30 ∧
     (30 : Int) < estSum (summaryParts [pShortSummary, pLongSummary] dbTwo) ∧
     30 < _estimate_tokens
        (String.intercalate "\n" (summaryParts [pShortSummary, pLongSummary] dbTwo)) ∧
     (contextParts [pShortSummary, pLongSummary] 99970 dbTwo).getD 1 "" =
        (_format_story_context pLongSummary dbTwo false).1 ∧
     (_format_story_context pLongSummary dbTwo false).1 ≠
        (_format_story_context pLongSummary dbTwo true).1) := by
  set_option maxRecDepth 100000 in decide

open TechDigest Fixtures in
/-- Witness for `c1_prepare_context_budget`: at budget 100 with one story,
  the all-degraded estimate 13 fits, so the returned blocks' estimate fits;
  at budget 20 with two stories, the returned blocks' estimate 76 exceeds
  the budget and both blocks are summary blocks. -/
theorem c1_witness :
    estSum (contextParts [pShortSummary] 99900 dbTwo) ≤
        MAX_CONTEXT_TOKENS - (99900 : Int) ∧
    contextParts [pShortSummary, pLongSummary] 99980 dbTwo =
        summaryParts [pShortSummary, pLongSummary] dbTwo :=
  ⟨(c1_prepare_context_budget [pShortSummary] 99900 dbTwo).2.2.1
      (by set_option maxRecDepth 100000 in decide),
   (c1_prepare_context_budget [pShortSummary, pLongSummary] 99980 dbTwo).2.2.2
      (by set_option maxRecDepth 100000 in decide)⟩

namespace DigestContext

open TechDigest

theorem dcFormat_of_safe (story : ProcessedItem) (db : Db) (u : Bool)
    (rets : Option (List String)) (h : dcSafe db story = true) :
    format_story_context story db u rets =
      Except.ok (_format_story_context story db u) := by
  simp only [dcSafe, Bool.and_eq_true, decide_eq_true_eq] at h
  obtain ⟨hent, hemail⟩ := h
  unfold format_story_context _format_story_context
  by_cases h1 : story.related_item_type = "hacker_news_story"
  · simp only [h1, if_pos rfl, hent, ite_true, ite_false]
    cases db.stories story.related_item_id <;>
      simp [Bind.bind, Except.bind, pure, Except.pure, hent]
  · by_cases h2 : story.related_item_type = "email_story"
    · simp only [h2, if_pos rfl, if_neg h1, hent] at hemail ⊢
      cases hdb : db.emailStories story.related_item_id with
      | none => simp [hdb, Bind.bind, Except.bind, pure, Except.pure, hent]
      | some rs =>
        rw [hdb] at hemail
        simp at hemail
        simp [hdb, hemail, Bind.bind, Except.bind, pure, Except.pure, hent]
    · by_cases h3 : story.related_item_type = "telegram_story"
      · simp only [if_neg h1, if_neg h2, h3, if_pos rfl]
        cases db.telegramStories story.related_item_id <;>
          simp [Bind.bind, Except.bind, pure, Except.pure, hent]
      · simp [if_neg h1, if_neg h2, if_neg h3, Bind.bind, Except.bind, pure, Except.pure, hent]

theorem mapM_format_of_safe (stories : List ProcessedItem) (db : Db) (u : Bool)
    (rets : Option (List String)) (h : ∀ st ∈ stories, dcSafe db st = true) :
    stories.mapM (fun st => format_story_context st db u rets) =
      Except.ok (stories.map (fun st => _format_story_context st db u)) := by
  induction stories with
  | nil => rfl
  | cons st rest ih =>
    rw [List.mapM_cons, dcFormat_of_safe st db u rets (h st (List.mem_cons_self st rest)),
      ih (fun x hx => h x (List.mem_cons_of_mem st hx))]
    rfl

theorem degradeGoE_ok (avail : Int) (summaryOfE : Nat → Except PyErr String)
    (summaryOf : Nat → String) :
    ∀ (l : List (Nat × Nat)) (ps : List String) (t : Int),
      (∀ p ∈ l, summaryOfE p.1 = Except.ok (summaryOf p.1)) →
      degradeGoE avail summaryOfE l ps t =
        Except.ok (degradeGo avail summaryOf l ps t) := by
  intro l
  induction l with
  | nil => intro ps t _; rfl
  | cons p rest ih =>
    intro ps t h
    obtain ⟨i, s⟩ := p
    by_cases hle : t ≤ avail
    · simp [degradeGoE, degradeGo, hle, pure, Except.pure]
    · have hi := h (i, s) (List.mem_cons_self _ _)
      simp only [degradeGoE, degradeGo, if_neg hle]
      rw [hi]
      simp only [Except.bind]
      exact ih _ _ (fun q hq => h q (List.mem_cons_of_mem _ hq))

theorem dc_prepare_of_safe (stories : List ProcessedItem) (prompt_tokens : Nat)
    (db : Db) (rets : Option (List String))
    (h : ∀ st ∈ stories, dcSafe db st = true) :
    prepare_context stories prompt_tokens db rets =
      Except.ok (TechDigest.prepare_context stories prompt_tokens db) := by
  unfold prepare_context TechDigest.prepare_context
  rw [mapM_format_of_safe stories db false rets h]
  simp only [Bind.bind, Except.bind]
  have hfst : (stories.map (fun st => _format_story_context st db false)).map Prod.fst =
      fullParts stories db := by
    simp [fullParts, List.map_map, Function.comp]
  have hsnd : (stories.map (fun st => _format_story_context st db false)).map Prod.snd =
      contentLens stories db := by
    simp [contentLens, List.map_map, Function.comp]
  rw [hfst, hsnd]
  by_cases hgt : estSum (fullParts stories db) >
      MAX_CONTEXT_TOKENS - (prompt_tokens : Int)
  · have hsum : ∀ p ∈ List.insertionSort lenDescRel
        ((List.range stories.length).zip (contentLens stories db)),
        ((stories.map (fun st => format_story_context st db true rets)).getD p.1
            (throw (PyErr.attributeError "index"))).map Prod.fst =
          Except.ok (summOf stories db p.1) := by
      intro p hp
      have hplt : p.1 < stories.length :=
        sortedSizes_fst_lt stories db p (by rw [sortedSizes_def]; exact hp)
      have hget : (stories.map (fun st => format_story_context st db true rets)).getD p.1
          (throw (PyErr.attributeError "index")) =
          format_story_context (stories.getD p.1 ⟨0, 0, "", "", 0, []⟩) db true rets := by
        rw [List.getD_eq_getElem?_getD, List.getElem?_map,
          List.getElem?_eq_getElem hplt]
        simp [List.getD_eq_getElem?_getD, List.getElem?_eq_getElem hplt]
      have hmem : stories.getD p.1 ⟨0, 0, "", "", 0, []⟩ ∈ stories := by
        rw [List.getD_eq_getElem?_getD, List.getElem?_eq_getElem hplt]
        exact List.getElem_mem _
      rw [hget, dcFormat_of_safe _ db true rets (h _ hmem)]
      simp only [Except.map]
      have hsummOf : summOf stories db p.1 =
          (_format_story_context (stories.getD p.1 ⟨0, 0, "", "", 0, []⟩) db true).1 := by
        simp [summOf, summaryParts, List.getD_eq_getElem?_getD, List.getElem?_map,
          List.getElem?_eq_getElem hplt]
      rw [hsummOf]
    simp only [if_pos hgt]
    rw [degradeGoE_ok _ _ (summOf stories db) _ _ _ hsum]
    have hcp : contextParts stories prompt_tokens db =
        (degradeGo (MAX_CONTEXT_TOKENS - (prompt_tokens : Int)) (summOf stories db)
          (List.insertionSort lenDescRel
            ((List.range stories.length).zip (contentLens stories db)))
          (fullParts stories db) (estSum (fullParts stories db))).1 := by
      simp only [contextParts, if_pos hgt]
    rw [hcp]
    rfl
  · simp only [if_neg hgt]
    have hcp : contextParts stories prompt_tokens db = fullParts stories db := by
      simp only [contextParts, if_neg hgt]
    rw [hcp]
    rfl

end DigestContext

open TechDigest Fixtures in
/-- C2.  First conjunct: the claim fails on the code as written — for a
  selected item with a single entity relation (here a telegram story), the
  first formatting pass raises `AttributeError` (the formatter reads
  `entity.entity_type`, which `ItemEntity` does not define), so
  `prepare_context` raises instead of returning any context.  Second
  conjunct: on every input it does not raise on (no entity relations, email
  stories with truthy target content), the claimed degrade policy holds
  exactly: the result is the newline-join, in original input order, of one
  block per item (none dropped), each the item's full or summary block; the
  degrade pass walks the `(index, content-length)` pairs stably sorted
  descending by content length and degrades precisely a minimal prefix,
  stopping as soon as the running total is within budget or every item is
  degraded. -/
theorem c2_degrade_policy :
    DigestContext.prepare_context [pWithEntity] 99000 dbTelegram none =
      Except.error (DigestContext.PyErr.attributeError "entity_type") ∧
    (∀ (stories : List ProcessedItem) (prompt_tokens : Nat) (db : Db)
        (rets : Option (List String)),
      (∀ st ∈ stories, DigestContext.dcSafe db st = true) →
      DigestContext.prepare_context stories prompt_tokens db rets =
        Except.ok (String.intercalate "\n" (contextParts stories prompt_tokens db)) ∧
      (contextParts stories prompt_tokens db).length = stories.length ∧
      (∀ i, i < stories.length →
        (contextParts stories prompt_tokens db).getD i "" =
            (_format_story_context (stories.getD i ⟨0, 0, "", "", 0, []⟩) db false).1 ∨
          (contextParts stories prompt_tokens db).getD i "" =
            (_format_story_context (stories.getD i ⟨0, 0, "", "", 0, []⟩) db true).1) ∧
      List.Sorted lenDescRel (sortedSizes stories db) ∧
      List.Perm (sortedSizes stories db)
        ((List.range stories.length).zip (contentLens stories db)) ∧
      ∃ k, k ≤ stories.length ∧
        contextParts stories prompt_tokens db =
          applyDegr (summOf stories db) (fullParts stories db)
            ((sortedSizes stories db).take k) ∧
        (∀ j < k,
          MAX_CONTEXT_TOKENS - (prompt_tokens : Int) <
            estSum (applyDegr (summOf stories db) (fullParts stories db)
              ((sortedSizes stories db).take j))) ∧
        (k = stories.length ∨
          estSum (contextParts stories prompt_tokens db) ≤
            MAX_CONTEXT_TOKENS - (prompt_tokens : Int))) := by
  constructor
  · set_option maxRecDepth 100000 in rfl
  · intro stories prompt_tokens db rets h
    refine ⟨DigestContext.dc_prepare_of_safe stories prompt_tokens db rets h,
      contextParts_length stories prompt_tokens db,
      fun i hi => contextParts_getD stories prompt_tokens db i hi,
      sortedSizes_sorted stories db,
      sortedSizes_perm stories db,
      contextParts_spec stories prompt_tokens db⟩

open TechDigest Fixtures in
/-- Witness for `c2_degrade_policy`: a concrete entity-free two-story input
  on which `digest_context.prepare_context` returns the joined degraded
  blocks. -/
theorem c2_witness :
    DigestContext.prepare_context [pShortSummary, pLongSummary] 99970 dbTwo none =
      Except.ok (String.intercalate "\n"
        (contextParts [pShortSummary, pLongSummary] 99970 dbTwo)) :=
  (c2_degrade_policy.2 [pShortSummary, pLongSummary] 99970 dbTwo none (by decide)).1

namespace TechDigest

theorem relevantRow_iff (db : Db) (start_date end_date : Int) (min_score : ℚ)
    (item : ProcessedItem) :
    relevantRow db start_date end_date min_score item = true ↔
      (start_date ≤ item.created_at ∧ item.created_at ≤ end_date ∧
        qualTag db min_score item) := by
  simp [relevantRow, qualTag, List.any_eq_true, and_assoc]

theorem dedupeByIdAux_eq_self (l : List ProcessedItem) :
    ∀ (seen : List Nat), (l.map (fun x => x.id)).Nodup →
      (∀ x ∈ l, x.id ∉ seen) → dedupeByIdAux seen l = l := by
  induction l with
  | nil => intro seen _ _; rfl
  | cons x xs ih =>
    intro seen hnd hs
    have hx : x.id ∉ seen := hs x (List.mem_cons_self x xs)
    obtain ⟨hhead, htail⟩ : (∀ z ∈ xs, ¬ z.id = x.id) ∧
        (List.map (fun it => it.id) xs).Nodup := by simpa using hnd
    rw [dedupeByIdAux, if_neg hx]
    congr 1
    apply ih (x.id :: seen) htail
    intro y hy
    simp only [List.mem_cons, not_or]
    exact ⟨hhead y hy, hs y (List.mem_cons_of_mem x hy)⟩

end TechDigest

open TechDigest Fixtures in
/-- C3 (amended).  For every database with distinct processed-item row ids,
  start date, end date and minimum score, `get_relevant_stories` returns
  exactly the ProcessedItems whose `created_at` lies in the **closed**
  range `[start, end]` (the source uses `created_at <= end_date`, so the
  upper bound is inclusive, not the half-open range the claim states) and
  that have at least one qualifying tag relation, each item exactly once. -/
theorem c3_get_relevant_stories (db : Db) (start_date end_date : Int)
    (min_score : ℚ) (h : (db.processedItems.map (fun it => it.id)).Nodup) :
    ((get_relevant_stories db start_date end_date min_score).map
        (fun it => it.id)).Nodup ∧
    ∀ item, item ∈ get_relevant_stories db start_date end_date min_score ↔
      (item ∈ db.processedItems ∧ start_date ≤ item.created_at ∧
        item.created_at ≤ end_date ∧ qualTag db min_score item) := by
  have hperm : List.Perm (List.insertionSort created_at_desc db.processedItems)
      db.processedItems := List.perm_insertionSort _ _
  have hnd_sorted : ((List.insertionSort created_at_desc db.processedItems).map
      (fun it => it.id)).Nodup :=
    ((hperm.map (fun it => it.id)).nodup_iff).mpr h
  have hsub : List.Sublist
      ((List.insertionSort created_at_desc db.processedItems).filter
        (relevantRow db start_date end_date min_score))
      (List.insertionSort created_at_desc db.processedItems) :=
    List.filter_sublist _
  have hnd_filtered : (((List.insertionSort created_at_desc db.processedItems).filter
      (relevantRow db start_date end_date min_score)).map
        (fun it => it.id)).Nodup :=
    (hsub.map (fun it => it.id)).nodup hnd_sorted
  have hded : get_relevant_stories db start_date end_date min_score =
      (List.insertionSort created_at_desc db.processedItems).filter
        (relevantRow db start_date end_date min_score) := by
    unfold get_relevant_stories dedupeById
    exact dedupeByIdAux_eq_self _ [] hnd_filtered (by simp)
  constructor
  · rw [hded]; exact hnd_filtered
  · intro item
    rw [hded, List.mem_filter, hperm.mem_iff, relevantRow_iff]

open TechDigest Fixtures in
/-- C3 counterexample: an item whose `created_at` equals the end of the
  range is returned by `get_relevant_stories`, although the claim's
  half-open range `[start, end)` excludes it. -/
theorem c3_counterexample :
    get_relevant_stories dbAtEnd 0 10 (mkRat 3 10) = [itemAtEnd] ∧
    itemAtEnd.created_at = 10 ∧ ¬ itemAtEnd.created_at < 10 := by
  decide

open TechDigest Fixtures in
/-- Witness for `c3_get_relevant_stories` at a concrete database. -/
theorem c3_witness :
    itemAtEnd ∈ get_relevant_stories dbAtEnd 0 10 (mkRat 3 10) :=
  ((c3_get_relevant_stories dbAtEnd 0 10 (mkRat 3 10) (by decide)).2 itemAtEnd).mpr
    ⟨by decide, by decide, by decide,
     ⟨1, 1, mkRat 9 10⟩, by decide, rfl, by decide,
     ⟨1, "machine learning"⟩, by decide, rfl, by decide⟩

namespace StoryProc

theorem keptEntities_cons (e : RawEntity) (rest : List RawEntity) :
    keptEntities (e :: rest) =
      if entityValid e then entityTuple e :: keptEntities rest
      else keptEntities rest := by
  rcases e with ⟨name, type, score, context⟩
  by_cases hn : truthy name
  case neg => simp [keptEntities, entityValid, hn]
  by_cases hty : truthy type
  case neg => simp [keptEntities, entityValid, hn, hty]
  by_cases hsc : truthy score
  case neg => simp [keptEntities, entityValid, hn, hty, hsc]
  by_cases hc : truthy context
  case neg => simp [keptEntities, entityValid, hn, hty, hsc, hc]
  cases type with
  | none => simp [truthy] at hty
  | some tv =>
    cases tv with
    | str t =>
      by_cases ht : t ∈ valid_types
      · cases score with
        | none => simp [truthy] at hsc
        | some sv =>
          cases hf : pyFloat sv with
          | error ex => simp [keptEntities, entityValid, ht, hf, hn, hty, hsc, hc]
          | ok q =>
            by_cases hr : (0 ≤ q ∧ q ≤ 1) <;>
              simp [keptEntities, entityValid, entityTuple, ht, hf, hn, hty, hsc, hc, hr]
      · simp [keptEntities, entityValid, ht, hn, hty, hsc, hc]
    | num q => simp [keptEntities, entityValid, hn, hty, hsc, hc]
    | bool b => simp [keptEntities, entityValid, hn, hty, hsc, hc]
    | null => simp [truthy] at hty

end StoryProc

open StoryProc Fixtures in
/-- C4 (amended).  The entity-validation loop keeps exactly the entities all
  of whose four fields are present **and truthy** (so a present score of `0`
  or an empty-string field also drops the entity — the code tests
  `all([name, entity_type, score, context])`, which is Python truthiness,
  not mere presence), whose type is a string in the fixed vocabulary
  {company, product, person, framework}, and whose score converts to a
  number in `[0, 1]`; it never raises, and invalid entities are skipped
  individually (the five-entity fixture with two invalid entries yields
  exactly its three valid tuples). -/
theorem c4_entity_validation :
    (∀ l : List RawEntity,
      keptEntities l = (l.filter entityValid).map entityTuple) ∧
    keptEntities entFive =
      [entityTuple entValid1, entityTuple entValid2, entityTuple entValid3] := by
  constructor
  · intro l
    induction l with
    | nil => rfl
    | cons e rest ih =>
      rw [keptEntities_cons, List.filter_cons]
      by_cases h : entityValid e
      · simp [h, ih]
      · simp [h, ih]
  · decide

open StoryProc Fixtures in
/-- C4 counterexample: an entity with every required field present, a
  vocabulary type, and the numeric in-range score `0` — by the claim's
  criteria it must be kept, but the code's `all([...])` truthiness test
  drops it. -/
theorem c4_counterexample :
    claimEntityValid entScoreZero = true ∧ keptEntities [entScoreZero] = [] := by
  decide

open StoryProc Fixtures in
/-- Witness for `c4_entity_validation` (its universally quantified part) at
  the five-entity fixture. -/
theorem c4_witness :
    keptEntities entFive = (entFive.filter entityValid).map entityTuple :=
  c4_entity_validation.1 entFive

open StoryProc Fixtures in
/-- C5.  Every required tag appears in the final tag set of every returned
  result of `process_content`: (1) any successful return carries every
  required tag at some score; (2) on a parsed document that omits a required
  tag, the result is returned (not raised) and carries that tag at score
  `0`; (3) an unparsable-YAML response degrades to the fixed error summary
  with exactly the required tags at `0.5` and no entities, instead of
  raising. -/
theorem c5_required_tags :
    (∀ (required : List String) (c tc : Option String) (cm : Option (List String))
        (resp : AnalysisResponse) (s : String) (tags : List (String × ℚ))
        (ents : List (YScalar × String × ℚ × YScalar)),
      process_content required c tc cm resp = PCResult.ok s tags ents →
      ∀ t ∈ required, ∃ q, (t, q) ∈ tags) ∧
    (∀ (required : List String) (c tc : Option String) (cm : Option (List String))
        (d : YDoc) (s : String) (ti : List TagItem) (tags0 : List (String × ℚ))
        (t : String),
      hasAnalysisInput c tc cm = true →
      extractSummary d.summary = Except.ok s →
      d.tags = some ti →
      extractTags ti = Except.ok tags0 →
      t ∈ required →
      (∀ p ∈ tags0, p.1 ≠ t) →
      ∃ tags ents,
        process_content required c tc cm (AnalysisResponse.doc d) =
          PCResult.ok s tags ents ∧ (t, 0) ∈ tags) ∧
    (∀ (required : List String) (c tc : Option String) (cm : Option (List String)),
      hasAnalysisInput c tc cm = true →
      process_content required c tc cm AnalysisResponse.yamlError =
        PCResult.ok "Error: Invalid response format"
          (required.map (fun tag => (tag, mkRat 1 2))) []) := by
  have hmemTriple : ∀ (required : List String) (msg s : String)
      (tags : List (String × ℚ)) (ents : List (YScalar × String × ℚ × YScalar)),
      errorTriple msg required = PCResult.ok s tags ents →
      ∀ t ∈ required, ∃ q, (t, q) ∈ tags := by
    intro required msg s tags ents h t ht
    simp only [errorTriple, PCResult.ok.injEq] at h
    exact ⟨mkRat 1 2, h.2.1 ▸ List.mem_map_of_mem _ ht⟩
  have hfinal : ∀ (required : List String) (tags0 : List (String × ℚ)) (t : String),
      t ∈ required →
      ∃ q, (t, q) ∈ tags0 ++
        (required.filter (fun rt => ¬ tags0.any (fun p => p.1 = rt))).map
          (fun rt => (rt, (0 : ℚ))) := by
    intro required tags0 t ht
    by_cases hany : tags0.any (fun p => p.1 = t) = true
    · simp only [List.any_eq_true, decide_eq_true_eq] at hany
      obtain ⟨p, hp, hpt⟩ := hany
      exact ⟨p.2, List.mem_append_left _ (by rw [← hpt]; exact hp)⟩
    · refine ⟨0, List.mem_append_right _ ?_⟩
      apply List.mem_map_of_mem
      rw [List.mem_filter]
      refine ⟨ht, ?_⟩
      simp only [decide_eq_true_eq]
      exact hany
  refine ⟨?_, ?_, ?_⟩
  · intro required c tc cm resp s tags ents h t ht
    by_cases hg : hasAnalysisInput c tc cm = true
    · cases resp with
      | connectionError =>
        simp only [process_content, hg, not_true_eq_false, if_false] at h
        exact hmemTriple required _ s tags ents h t ht
      | raises e => simp [process_content, hg] at h
      | yamlError =>
        simp only [process_content, hg, not_true_eq_false, if_false] at h
        exact hmemTriple required _ s tags ents h t ht
      | nonMapping => simp [process_content, hg] at h
      | doc d =>
        rcases hsum : extractSummary d.summary with e | summary
        · simp only [process_content, hg, not_true_eq_false, if_false, hsum] at h
          exact hmemTriple required _ s tags ents h t ht
        · rcases hti : d.tags with _ | ti
          · simp only [process_content, hg, not_true_eq_false, if_false, hsum, hti] at h
            exact hmemTriple required _ s tags ents h t ht
          · rcases hte : extractTags ti with e | tags0
            · cases e with
              | keyError =>
                simp only [process_content, hg, not_true_eq_false, if_false,
                  hsum, hti, hte] at h
                exact hmemTriple required _ s tags ents h t ht
              | valueError =>
                simp only [process_content, hg, not_true_eq_false, if_false,
                  hsum, hti, hte] at h
                exact hmemTriple required _ s tags ents h t ht
              | typeError => simp [process_content, hg, hsum, hti, hte] at h
            · simp only [process_content, hg, not_true_eq_false, if_false,
                hsum, hti, hte, PCResult.ok.injEq] at h
              obtain ⟨hs, htags, hents⟩ := h
              rw [← htags]
              exact hfinal required tags0 t ht
    · simp [process_content, hg] at h
  · intro required c tc cm d s ti tags0 t hg hsum hti hte ht hnot
    have hnotany : tags0.any (fun p => p.1 = t) = false := by
      rw [List.any_eq_false]
      intro p hp
      simpa using hnot p hp
    refine ⟨tags0 ++ (required.filter
        (fun rt => ¬ tags0.any (fun p => p.1 = rt))).map (fun rt => (rt, (0 : ℚ))),
      keptEntities d.entities, ?_, ?_⟩
    · simp only [process_content, hg, not_true_eq_false, if_false, hsum, hti, hte]
    · apply List.mem_append_right
      apply List.mem_map_of_mem
      rw [List.mem_filter]
      refine ⟨ht, ?_⟩
      simp [hnotany]
  · intro required c tc cm hg
    simp [process_content, hg, errorTriple]

open StoryProc Fixtures in
/-- Witness for `c5_required_tags` at concrete inputs: a required tag is
  present after an unparsable-YAML degradation; a parsed document omitting
  the required tags still yields a returned result carrying
  "machine learning" at score `0`; and the unparsable-YAML result is the
  fixed error triple. -/
theorem c5_witness :
    (∃ q, ("cybersecurity", q) ∈
      (["machine learning", "generative ai", "cybersecurity"].map
        (fun tag => (tag, mkRat 1 2)))) ∧
    (∃ tags ents,
      process_content ["machine learning", "generative ai", "cybersecurity"]
          (some "t") none none (AnalysisResponse.doc docNoRequired) =
        PCResult.ok "a summary" tags ents ∧ ("machine learning", 0) ∈ tags) ∧
    process_content ["machine learning", "generative ai", "cybersecurity"]
        (some "t") none none AnalysisResponse.yamlError =
      PCResult.ok "Error: Invalid response format"
        (["machine learning", "generative ai", "cybersecurity"].map
          (fun tag => (tag, mkRat 1 2))) [] :=
  ⟨c5_required_tags.1 ["machine learning", "generative ai", "cybersecurity"]
      (some "t") none none AnalysisResponse.yamlError _ _ _
      (c5_required_tags.2.2 ["machine learning", "generative ai", "cybersecurity"]
        (some "t") none none (by decide)) "cybersecurity" (by decide),
   c5_required_tags.2.1 ["machine learning", "generative ai", "cybersecurity"]
      (some "t") none none docNoRequired "a summary"
      [⟨some "rust", some (YScalar.num (mkRat 7 10))⟩] [("rust", mkRat 7 10)]
      "machine learning" (by decide) rfl rfl rfl (by decide) (by decide),
   c5_required_tags.2.2 ["machine learning", "generative ai", "cybersecurity"]
      (some "t") none none (by decide)⟩

namespace GenAI

theorem processGo_spec {α : Type} (parse : String → Except String α)
    (completions : Nat → Except String String) (rf : ResponseFormat)
    (temp : Option String) (mt : Nat) (orig : String) :
    ∀ (fuel : Nat), 1 ≤ fuel → ∀ (prompt : String) (acc : List Attempt),
      ∃ new : List Attempt,
        (processGo parse completions rf temp mt orig fuel prompt acc).attempts =
          acc ++ new ∧
        new.length ≤ fuel ∧
        (processGo parse completions rf temp mt orig fuel prompt acc).calls ≤
          acc.length + fuel ∧
        (∀ a, new[0]? = some a → a.prompt = prompt) ∧
        (∀ i a b, new[i]? = some a → new[i + 1]? = some b →
          ∃ e, a.parseError = some e ∧
            b.prompt = correctionPrompt rf.value e orig) ∧
        (∀ v, (processGo parse completions rf temp mt orig fuel prompt acc).outcome =
            ProcOutcome.ok v →
          ∃ att, new.getLast? = some att ∧ att.parseError = none ∧
            (processGo parse completions rf temp mt orig fuel prompt acc).records =
              [⟨att.prompt, att.cleaned, rf.value, temp, mt⟩]) ∧
        (∀ e, (processGo parse completions rf temp mt orig fuel prompt acc).outcome =
            ProcOutcome.valError e →
          new.length = fuel ∧
          (∃ att, new.getLast? = some att ∧ att.parseError = some e) ∧
          (processGo parse completions rf temp mt orig fuel prompt acc).records = []) ∧
        (∀ e, (processGo parse completions rf temp mt orig fuel prompt acc).outcome =
            ProcOutcome.apiError e →
          (processGo parse completions rf temp mt orig fuel prompt acc).records = []) := by
  intro fuel
  induction fuel with
  | zero => intro h; omega
  | succ f ih =>
    intro _ prompt acc
    cases hc : completions acc.length with
    | error e =>
      refine ⟨[], by simp [processGo, hc], by simp, by simp [processGo, hc],
        by simp, by simp, ?_, ?_, ?_⟩
      · intro v hv; rw [processGo, hc] at hv; cases hv
      · intro e' hv; rw [processGo, hc] at hv; cases hv
      · intro e' _; simp [processGo, hc]
    | ok content =>
      cases hp : parse (_clean_code_block content) with
      | ok result =>
        refine ⟨[⟨prompt, content, _clean_code_block content, none⟩],
          by simp [processGo, hc, hp], by simp, by simp [processGo, hc, hp], ?_, ?_,
          ?_, ?_, ?_⟩
        · intro a ha
          simp only [List.getElem?_cons_zero, Option.some.injEq] at ha
          subst ha; rfl
        · intro i a b _ hb; cases i <;> simp at hb
        · intro v _
          exact ⟨_, rfl, rfl, by simp [processGo, hc, hp]⟩
        · intro e' hv; rw [processGo] at hv; simp only [hc, hp] at hv; cases hv
        · intro e' hv; rw [processGo] at hv; simp only [hc, hp] at hv; cases hv
      | error e =>
        by_cases hf : f = 0
        · subst hf
          refine ⟨[⟨prompt, content, _clean_code_block content, some e⟩],
            by simp [processGo, hc, hp], by simp, by simp [processGo, hc, hp], ?_, ?_,
            ?_, ?_, ?_⟩
          · intro a ha
            simp only [List.getElem?_cons_zero, Option.some.injEq] at ha
            subst ha; rfl
          · intro i a b _ hb; cases i <;> simp at hb
          · intro v hv; rw [processGo] at hv; simp only [hc, hp] at hv; cases hv
          · intro e' hv
            rw [processGo] at hv
            simp only [hc, hp, if_pos rfl] at hv
            cases hv
            exact ⟨rfl, ⟨_, rfl, rfl⟩, by simp [processGo, hc, hp]⟩
          · intro e' hv; rw [processGo] at hv; simp only [hc, hp, if_pos rfl] at hv; cases hv
        · have hstep : processGo parse completions rf temp mt orig (f + 1) prompt acc =
              processGo parse completions rf temp mt orig f
                (correctionPrompt rf.value e orig)
                (acc ++ [⟨prompt, content, _clean_code_block content, some e⟩]) := by
            rw [processGo]
            simp only [hc, hp, if_neg hf]
          obtain ⟨new', h1, h2, h3, h4, h5, h6, h7, h8⟩ :=
            ih (by omega) (correctionPrompt rf.value e orig)
              (acc ++ [⟨prompt, content, _clean_code_block content, some e⟩])
          have hne : ∀ v, new'.getLast? = some v →
              (⟨prompt, content, _clean_code_block content, some e⟩ :: new').getLast? =
                some v := by
            intro v hv
            rcases new' with _ | ⟨b, t⟩
            · cases hv
            · rw [List.getLast?_cons_cons]; exact hv
          refine ⟨⟨prompt, content, _clean_code_block content, some e⟩ :: new',
            ?_, ?_, ?_, ?_, ?_, ?_, ?_, ?_⟩
          · rw [hstep, h1]; simp
          · simp only [List.length_cons]; omega
          · rw [hstep]
            refine le_trans h3 ?_
            simp only [List.length_append, List.length_cons, List.length_nil]
            omega
          · intro a ha
            simp only [List.getElem?_cons_zero, Option.some.injEq] at ha
            subst ha; rfl
          · intro i a b ha hb
            cases i with
            | zero =>
              simp only [List.getElem?_cons_zero, Option.some.injEq] at ha
              subst ha
              refine ⟨e, rfl, ?_⟩
              exact h4 b (by simpa using hb)
            | succ j =>
              exact h5 j a b (by simpa using ha) (by simpa using hb)
          · intro v hv
            rw [hstep] at hv
            obtain ⟨att, hlast, hperr, hrec⟩ := h6 v hv
            exact ⟨att, hne att hlast, hperr, by rw [hstep]; exact hrec⟩
          · intro e' hv
            rw [hstep] at hv
            obtain ⟨hlen, ⟨att, hlast, hperr⟩, hrec⟩ := h7 e' hv
            exact ⟨by simp [hlen], ⟨att, hne att hlast, hperr⟩, by rw [hstep]; exact hrec⟩
          · intro e' hv
            rw [hstep] at hv
            rw [hstep]
            exact h8 e' hv

end GenAI

open GenAI Fixtures in
/-- C6.  For every format parser, completion oracle, response format,
  temperature, token limit, retry budget and prompt: the processor's default
  retry budget is 2; a `process` call requests at most `max_retries + 1`
  completions and makes at most `max_retries + 1` attempts; the first
  attempt uses the caller's prompt and every later attempt uses the
  corrective follow-up prompt built from the previous attempt's validation
  error and the *original* prompt; and when the call ends in a validation
  error, all `max_retries + 1` attempts were used and the raised error is
  the final attempt's validation error. -/
theorem c6_retry_policy {α : Type} (parse : String → Except String α)
    (completions : Nat → Except String String) (rf : ResponseFormat)
    (temp : Option String) (mt : Nat) (max_retries : Nat) (prompt : String) :
    defaultMaxRetries = 2 ∧
    (process parse completions rf temp mt max_retries prompt).calls ≤
      max_retries + 1 ∧
    (process parse completions rf temp mt max_retries prompt).attempts.length ≤
      max_retries + 1 ∧
    (∀ a, (process parse completions rf temp mt max_retries prompt).attempts[0]? =
        some a → a.prompt = prompt) ∧
    (∀ i a b,
      (process parse completions rf temp mt max_retries prompt).attempts[i]? = some a →
      (process parse completions rf temp mt max_retries prompt).attempts[i + 1]? = some b →
      ∃ e, a.parseError = some e ∧
        b.prompt = correctionPrompt rf.value e prompt) ∧
    (∀ e, (process parse completions rf temp mt max_retries prompt).outcome =
        ProcOutcome.valError e →
      (process parse completions rf temp mt max_retries prompt).attempts.length =
        max_retries + 1 ∧
      ∃ att, (process parse completions rf temp mt max_retries
          prompt).attempts.getLast? = some att ∧ att.parseError = some e) := by
  obtain ⟨new, h1, h2, h3, h4, h5, h6, h7, h8⟩ :=
    processGo_spec parse completions rf temp mt prompt (max_retries + 1)
      (by omega) prompt []
  have hpg : process parse completions rf temp mt max_retries prompt =
      processGo parse completions rf temp mt prompt (max_retries + 1) prompt [] := rfl
  have hnew : (process parse completions rf temp mt max_retries prompt).attempts = new := by
    rw [hpg, h1]; simp
  refine ⟨rfl, ?_, ?_, ?_, ?_, ?_⟩
  · rw [hpg]; simpa using h3
  · rw [hnew]; exact h2
  · intro a ha; exact h4 a (by rw [← hnew]; exact ha)
  · intro i a b ha hb
    exact h5 i a b (by rw [← hnew]; exact ha) (by rw [← hnew]; exact hb)
  · intro e hv
    rw [hpg] at hv
    obtain ⟨hlen, hlast, _⟩ := h7 e hv
    exact ⟨by rw [hnew]; exact hlen, by rw [hnew]; exact hlast⟩

open GenAI Fixtures in
/-- C10.  For every parser, completion oracle and configuration, a `Prompt`
  audit row is written if and only if the call returns a parsed result; the
  single row written on success records the successful attempt's prompt and
  cleaned response together with the format, temperature and token limit;
  and both the retry-exhaustion path and the provider-error path write no
  row at all. -/
theorem c10_prompt_audit {α : Type} (parse : String → Except String α)
    (completions : Nat → Except String String) (rf : ResponseFormat)
    (temp : Option String) (mt : Nat) (max_retries : Nat) (prompt : String) :
    ((∃ v, (process parse completions rf temp mt max_retries prompt).outcome =
        ProcOutcome.ok v) ↔
      (process parse completions rf temp mt max_retries prompt).records ≠ []) ∧
    (∀ v, (process parse completions rf temp mt max_retries prompt).outcome =
        ProcOutcome.ok v →
      ∃ att, (process parse completions rf temp mt max_retries
          prompt).attempts.getLast? = some att ∧ att.parseError = none ∧
        (process parse completions rf temp mt max_retries prompt).records =
          [⟨att.prompt, att.cleaned, rf.value, temp, mt⟩]) ∧
    (∀ e, (process parse completions rf temp mt max_retries prompt).outcome =
        ProcOutcome.valError e →
      (process parse completions rf temp mt max_retries prompt).records = []) ∧
    (∀ e, (process parse completions rf temp mt max_retries prompt).outcome =
        ProcOutcome.apiError e →
      (process parse completions rf temp mt max_retries prompt).records = []) := by
  obtain ⟨new, h1, h2, h3, h4, h5, h6, h7, h8⟩ :=
    processGo_spec parse completions rf temp mt prompt (max_retries + 1)
      (by omega) prompt []
  have hpg : process parse completions rf temp mt max_retries prompt =
      processGo parse completions rf temp mt prompt (max_retries + 1) prompt [] := rfl
  have hnew : (process parse completions rf temp mt max_retries prompt).attempts = new := by
    rw [hpg, h1]; simp
  refine ⟨?_, ?_, ?_, ?_⟩
  · constructor
    · intro hex
      obtain ⟨v, hv⟩ := hex
      rw [hpg] at hv
      obtain ⟨att, _, _, hrec⟩ := h6 v hv
      rw [hpg, hrec]
      simp
    · intro hne
      cases ho : (process parse completions rf temp mt max_retries prompt).outcome with
      | ok v => exact ⟨v, rfl⟩
      | valError e =>
        rw [hpg] at ho
        exact absurd (by rw [hpg]; exact (h7 e ho).2.2) hne
      | apiError e =>
        rw [hpg] at ho
        exact absurd (by rw [hpg]; exact h8 e ho) hne
  · intro v hv
    rw [hpg] at hv
    obtain ⟨att, hlast, hperr, hrec⟩ := h6 v hv
    exact ⟨att, by rw [hnew]; exact hlast, hperr, by rw [hpg]; exact hrec⟩
  · intro e hv
    rw [hpg] at hv
    rw [hpg]
    exact (h7 e hv).2.2
  · intro e hv
    rw [hpg] at hv
    rw [hpg]
    exact h8 e hv

open GenAI Fixtures in
/-- Witness for `c6_retry_policy`: with a parser that rejects everything and
  an endpoint that always answers, a call with retry budget 2 makes exactly
  3 attempts, raises the final validation error, sends the original prompt
  first, and sends a corrective prompt on the second attempt. -/
theorem c6_witness :
    (process parseNever alwaysRespond ResponseFormat.raw none 16000 2 "p").attempts.length =
      2 + 1 ∧
    (∃ att, (process parseNever alwaysRespond ResponseFormat.raw none 16000 2
        "p").attempts.getLast? = some att ∧
      att.parseError = some "mapping values are not allowed here") ∧
    (Attempt.mk "p" "resp" "resp"
      (some "mapping values are not allowed here")).prompt = "p" ∧
    (∃ e, (Attempt.mk "p" "resp" "resp"
        (some "mapping values are not allowed here")).parseError = some e ∧
      (Attempt.mk (correctionPrompt "raw" "mapping values are not allowed here" "p")
          "resp" "resp" (some "mapping values are not allowed here")).prompt =
        correctionPrompt ResponseFormat.raw.value e "p") := by
  have h := c6_retry_policy parseNever alwaysRespond ResponseFormat.raw none 16000 2 "p"
  obtain ⟨hlen, hlast⟩ := h.2.2.2.2.2 "mapping values are not allowed here" rfl
  exact ⟨hlen, hlast,
    h.2.2.2.1 (Attempt.mk "p" "resp" "resp"
      (some "mapping values are not allowed here")) rfl,
    h.2.2.2.2.1 0 _ _ rfl rfl⟩

open GenAI Fixtures in
/-- Witness for `c10_prompt_audit`: a successful RAW call writes its single
  audit row; an exhausted-retries call writes none. -/
theorem c10_witness :
    (process parseRaw alwaysRespond ResponseFormat.raw none 16000 2 "p").records ≠ [] ∧
    (process parseNever alwaysRespond ResponseFormat.raw none 16000 2 "p").records = [] :=
  ⟨(c10_prompt_audit parseRaw alwaysRespond ResponseFormat.raw none 16000 2 "p").1.mp
      ⟨"resp", rfl⟩,
   (c10_prompt_audit parseNever alwaysRespond ResponseFormat.raw none 16000 2 "p").2.2.1
      "mapping values are not allowed here" rfl⟩

namespace EmailPipeline

/-- `addTagIfMissing` touches only the tag vocabulary (and its id
  counter). -/
theorem addTagIfMissing_fields (store : EmailStore) (t : String) :
    (addTagIfMissing store t).emailStories = store.emailStories ∧
    (addTagIfMissing store t).processedItems = store.processedItems ∧
    (addTagIfMissing store t).itemTagRelations = store.itemTagRelations ∧
    (addTagIfMissing store t).itemEntityRelations = store.itemEntityRelations ∧
    (addTagIfMissing store t).urlContents = store.urlContents := by
  unfold addTagIfMissing
  by_cases hc : store.itemTags.any (fun tg => tg.name == t) = true
  · rw [if_pos hc]; exact ⟨rfl, rfl, rfl, rfl, rfl⟩
  · rw [if_neg hc]; exact ⟨rfl, rfl, rfl, rfl, rfl⟩

/-- `ensure_required_tags` touches only the tag vocabulary (and its id
  counter). -/
theorem ensure_required_tags_fields (l : List String) :
    ∀ store : EmailStore,
      (ensure_required_tags store l).emailStories = store.emailStories ∧
      (ensure_required_tags store l).processedItems = store.processedItems ∧
      (ensure_required_tags store l).itemTagRelations = store.itemTagRelations ∧
      (ensure_required_tags store l).itemEntityRelations = store.itemEntityRelations ∧
      (ensure_required_tags store l).urlContents = store.urlContents := by
  induction l with
  | nil => intro store; exact ⟨rfl, rfl, rfl, rfl, rfl⟩
  | cons t rest ih =>
    intro store
    have hstep : ensure_required_tags store (t :: rest) =
        ensure_required_tags (addTagIfMissing store t) rest := by
      rw [ensure_required_tags, List.foldl_cons]
      rfl
    rw [hstep]
    obtain ⟨s1, s2, s3, s4, s5⟩ := addTagIfMissing_fields store t
    obtain ⟨r1, r2, r3, r4, r5⟩ := ih (addTagIfMissing store t)
    exact ⟨r1.trans s1, r2.trans s2, r3.trans s3, r4.trans s4, r5.trans s5⟩

end EmailPipeline

open EmailPipeline Fixtures in
/-- C7.  Running the email enrichment pipeline without force-regenerate over
  a store in which every email story already has a `ProcessedItem` of type
  `email_story` creates no `ProcessedItem`, tag-relation or entity-relation
  rows; the run succeeds, and the email stories and content cache are also
  untouched (only missing required tags may be inserted into the tag
  vocabulary). -/
theorem c7_idempotent_rerun (extract : String → Option String)
    (llmResponse : EmailStory → StoryProc.AnalysisResponse) (now : Int)
    (store : EmailStore)
    (h : ∀ st ∈ store.emailStories,
      store.processedItems.any (fun pi =>
        pi.related_item_type == "email_story" && pi.related_item_id == st.id) = true) :
    ∃ store2, process_email_stories false extract llmResponse now store =
        Except.ok store2 ∧
      store2.emailStories = store.emailStories ∧
      store2.processedItems = store.processedItems ∧
      store2.itemTagRelations = store.itemTagRelations ∧
      store2.itemEntityRelations = store.itemEntityRelations ∧
      store2.urlContents = store.urlContents := by
  obtain ⟨he, hp, htr, her, hu⟩ :=
    ensure_required_tags_fields REQUIRED_TAGS store
  set store1 := ensure_required_tags store REQUIRED_TAGS with hstore1
  have hsel : selectBatch false store1 0 = [] := by
    unfold selectBatch
    rw [if_neg (by simp)]
    have hfilter : store1.emailStories.filter (fun st =>
        ¬ store1.processedItems.any (fun pi =>
          pi.related_item_type == "email_story" && pi.related_item_id == st.id)) = [] := by
      rw [List.filter_eq_nil_iff]
      intro st hst
      rw [he] at hst
      rw [hp]
      simp only [decide_eq_true_eq, not_not]  -- the filter predicate is a decide of a negation
      simp [h st hst]
    rw [hfilter]
    rfl
  refine ⟨store1, ?_, he, hp, htr, her, hu⟩
  unfold process_email_stories
  rw [← hstore1]
  show processLoop false extract llmResponse now (store1.emailStories.length + 1) 0 store1 =
    Except.ok store1
  rw [processLoop, hsel]
  simp

open EmailPipeline Fixtures in
/-- Witness for `c7_idempotent_rerun`: a store whose one email story already
  has its processed item is left with the same rows. -/
theorem c7_witness :
    ∃ store2, process_email_stories false extractFails
        (fun _ => StoryProc.AnalysisResponse.yamlError) 0 storeDone =
      Except.ok store2 ∧
      store2.emailStories = storeDone.emailStories ∧
      store2.processedItems = storeDone.processedItems ∧
      store2.itemTagRelations = storeDone.itemTagRelations ∧
      store2.itemEntityRelations = storeDone.itemEntityRelations ∧
      store2.urlContents = storeDone.urlContents :=
  c7_idempotent_rerun extractFails (fun _ => StoryProc.AnalysisResponse.yamlError) 0
    storeDone (by decide)

open TechDigest Fixtures in
/-- C8.  When no processed item qualifies for the (resolved) date range, the
  digest run only reports that outcome: its effect trace is exactly the
  console report, so no LLM call is made, no prompt-audit row or digest row
  or story link is inserted, and no file is written. -/
theorem c8_digest_noop (db : Db) (start_date? end_date? : Option Int) (now : Int)
    (prompt_template : String) (llm : String → Except String String)
    (h : ∀ item ∈ db.processedItems,
      relevantRow db
        (start_date?.getD ((end_date?.getD now) - DEFAULT_DAYS * SECONDS_PER_DAY))
        (end_date?.getD now) MIN_TAG_SCORE item = false) :
    mainRun db start_date? end_date? now prompt_template llm =
      ([Effect.printed "No relevant stories found in the specified time period."],
       none) ∧
    (∀ p, Effect.llmCall p ∉ (mainRun db start_date? end_date? now prompt_template llm).1) ∧
    Effect.promptRecordInsert ∉ (mainRun db start_date? end_date? now prompt_template llm).1 ∧
    (∀ c, Effect.fileWrite c ∉ (mainRun db start_date? end_date? now prompt_template llm).1) ∧
    (∀ c sd ed, Effect.digestInsert c sd ed ∉
      (mainRun db start_date? end_date? now prompt_template llm).1) ∧
    (∀ i, Effect.digestStoryLink i ∉
      (mainRun db start_date? end_date? now prompt_template llm).1) := by
  have hsel : get_relevant_stories db
      (start_date?.getD ((end_date?.getD now) - DEFAULT_DAYS * SECONDS_PER_DAY))
      (end_date?.getD now) MIN_TAG_SCORE = [] := by
    unfold get_relevant_stories
    have hfilter : (List.insertionSort created_at_desc db.processedItems).filter
        (relevantRow db
          (start_date?.getD ((end_date?.getD now) - DEFAULT_DAYS * SECONDS_PER_DAY))
          (end_date?.getD now) MIN_TAG_SCORE) = [] := by
      rw [List.filter_eq_nil_iff]
      intro item hitem
      have : item ∈ db.processedItems :=
        (List.perm_insertionSort created_at_desc db.processedItems).mem_iff.mp hitem
      simp [h item this]
    rw [hfilter]
    rfl
  have hmain : mainRun db start_date? end_date? now prompt_template llm =
      ([Effect.printed "No relevant stories found in the specified time period."],
       none) := by
    simp only [mainRun]
    rw [hsel]
    rfl
  rw [hmain]
  refine ⟨rfl, ?_, ?_, ?_, ?_, ?_⟩ <;> simp

open TechDigest Fixtures in
/-- Witness for `c8_digest_noop` at an empty database. -/
theorem c8_witness :
    mainRun dbEmpty none none 0 "tmpl" (fun _ => Except.ok "digest") =
      ([Effect.printed "No relevant stories found in the specified time period."],
       none) :=
  (c8_digest_noop dbEmpty none none 0 "tmpl" (fun _ => Except.ok "digest")
    (by intro item hitem; cases hitem)).1

namespace EmailPipeline

/-- Under permanent rate limiting the retry loop gives up and returns
  `None`. -/
theorem extractGo_429 (responses : Nat → HttpResp) (max_retries : Nat)
    (h : ∀ k, responses k = HttpResp.httpError 429) :
    ∀ (fuel attempt : Nat), extractGo responses max_retries attempt fuel = none := by
  intro fuel
  induction fuel with
  | zero => intro attempt; rfl
  | succ f ih =>
    intro attempt
    rw [extractGo, h attempt]
    show (if 429 = 429 ∧ attempt < max_retries - 1 then
        extractGo responses max_retries (attempt + 1) f
      else none) = none
    by_cases hc : (429 = 429 ∧ attempt < max_retries - 1)
    · rw [if_pos hc]; exact ih (attempt + 1)
    · rw [if_neg hc]

end EmailPipeline

open EmailPipeline Fixtures in
/-- C9 (amended).  For every URL consulted by the email enrichment
  pipeline: a cache hit whose entry has truthy (non-**empty**) content
  attaches that content with no extraction call and no new cache row; on a
  cache miss — or a hit whose stored content is null or empty — with a
  failing extractor, the story's content stays null and no cache row is
  created (so the next run retries extraction); `mailto:` URLs
  short-circuit to null without any request; and exhausted rate-limit
  retries yield null. -/
theorem c9_cache_policy :
    (∀ (store : EmailStore) (story : EmailStory) (extract : String → Option String)
        (now : Int) (uc : URLContentRow),
      pyTruthyStr story.target_content = false → story.url ≠ "" →
      store.urlContents.filter (fun r => r.url == story.url) = [uc] →
      pyTruthyStr uc.target_content = true →
      resolveStoryContent store story extract now =
        Except.ok ({ story with target_content := uc.target_content }, store, false)) ∧
    (∀ (store : EmailStore) (story : EmailStory) (extract : String → Option String)
        (now : Int),
      pyTruthyStr story.target_content = false → story.url ≠ "" →
      (store.urlContents.filter (fun r => r.url == story.url) = [] ∨
        (∃ uc, store.urlContents.filter (fun r => r.url == story.url) = [uc] ∧
          pyTruthyStr uc.target_content = false)) →
      pyTruthyStr (extract story.url) = false →
      resolveStoryContent store story extract now = Except.ok (story, store, true)) ∧
    (∀ (responses : Nat → HttpResp) (url : String) (max_retries : Nat),
      strStarts url "mailto:" = true →
      extract_content responses url max_retries = none) ∧
    (∀ (responses : Nat → HttpResp) (url : String) (max_retries : Nat),
      (∀ k, responses k = HttpResp.httpError 429) →
      extract_content responses url max_retries = none) := by
  refine ⟨?_, ?_, ?_, ?_⟩
  · intro store story extract now uc hfalsy hurl hfilter htruthy
    unfold resolveStoryContent
    rw [if_pos (by simp [hfalsy, hurl]), hfilter]
    simp [htruthy]
  · intro store story extract now hfalsy hurl hcache hext
    unfold resolveStoryContent
    rw [if_pos (by simp [hfalsy, hurl])]
    rcases hcache with hnil | ⟨uc, hone, hucf⟩
    · rw [hnil]
      simp [hext]
    · rw [hone]
      simp [hucf, hext]
  · intro responses url max_retries hm
    unfold extract_content
    rw [if_pos hm]
  · intro responses url max_retries h429
    unfold extract_content
    by_cases hm : strStarts url "mailto:" = true
    · rw [if_pos hm]
    · rw [if_neg hm]
      exact extractGo_429 responses max_retries h429 max_retries 0

open EmailPipeline Fixtures in
/-- C9 counterexample: a cache row whose `target_content` is the empty
  string — non-null, so by the claim the hit must be returned with no
  extraction call — instead falls through to the extractor (the code tests
  `url_content.target_content` for truthiness, and `""` is falsy). -/
theorem c9_counterexample :
    (storeEmptyCache.urlContents.filter
        (fun r => r.url == storyNoContent.url) =
      [⟨1, "http://x", some "", 0, 0⟩]) ∧
    (some "" : Option String) ≠ none ∧
    resolveStoryContent storeEmptyCache storyNoContent extractFails 0 =
      Except.ok (storyNoContent, storeEmptyCache, true) :=
  ⟨rfl, by decide, rfl⟩

open EmailPipeline Fixtures in
/-- Witness for `c9_cache_policy` at concrete stores: a truthy cache hit is
  attached without extraction; a cache miss with a failing extractor leaves
  the store unchanged; a `mailto:` URL and a permanently rate-limited
  endpoint both yield null. -/
theorem c9_witness :
    resolveStoryContent storeGoodCache storyNoContent extractFails 0 =
      Except.ok ({ storyNoContent with target_content := some "cached text" },
        storeGoodCache, false) ∧
    resolveStoryContent storeEmpty storyNoContent extractFails 0 =
      Except.ok (storyNoContent, storeEmpty, true) ∧
    extract_content always429 "mailto:bob@example.com" 3 = none ∧
    extract_content always429 "http://x" 3 = none :=
  ⟨c9_cache_policy.1 storeGoodCache storyNoContent extractFails 0
      ⟨1, "http://x", some "cached text", 0, 0⟩ rfl (by decide) rfl rfl,
   c9_cache_policy.2.1 storeEmpty storyNoContent extractFails 0 rfl (by decide)
      (Or.inl rfl) rfl,
   c9_cache_policy.2.2.1 always429 "mailto:bob@example.com" 3 (by decide),
   c9_cache_policy.2.2.2 always429 "http://x" 3 (fun _ => rfl)⟩
